import Mathlib

/-!
Verification of the Sixxer order-lifecycle orchestration core.

This file gives a shallow embedding of the orchestration engine:
the order status state machine (`src/orchestrator/state_machine.py`),
the JSON cell codec used by the persistence layer
(`src/models/database.py`), the budget-guarded AI client
(`src/ai/client.py`), the dispatcher (`src/orchestrator/dispatcher.py`),
the order monitor's database interactions (`src/fiverr/order_monitor.py`)
and the scheduler loop (`src/orchestrator/scheduler.py`).

Conventions of the embedding:
* the SQLite `orders` table is a `List OrdersRow`; TEXT cells holding
  JSON payloads are `String`s, numeric cells are `ℚ`/`Int`;
* wall-clock timestamps (ISO-8601 TEXT cells in the source) are `Nat`
  ticks threaded through a `World`, each `datetime.now()` call reading
  and advancing the tick;
* a Python coroutine that can raise is a function into `Except`;
  an `Except.error` result models an exception propagating to the
  caller, while caught exceptions are folded into the ordinary result;
* external collaborators (browser, LLM, inbox) are oracle functions
  supplied in an environment structure.
-/

namespace Sixxer

/-- Order lifecycle statuses, mirroring the `OrderStatus` enum of
`src/models/schemas.py`. -/
inductive OrderStatus
  | new
  | analyzing
  | clarifying
  | in_progress
  | review
  | delivering
  | delivered
  | completed
  | revision_requested
  | cancelled
  | failed
  deriving DecidableEq, Repr

/-- The `.value` string of each `OrderStatus` member. -/
def OrderStatus.value : OrderStatus → String
  | .new => "new"
  | .analyzing => "analyzing"
  | .clarifying => "clarifying"
  | .in_progress => "in_progress"
  | .review => "review"
  | .delivering => "delivering"
  | .delivered => "delivered"
  | .completed => "completed"
  | .revision_requested => "revision_requested"
  | .cancelled => "cancelled"
  | .failed => "failed"

/-- The `OrderStatus(...)` enum constructor applied to a stored string;
`none` models the `ValueError` raised on an unknown value. -/
def OrderStatus.ofValue (s : String) : Option OrderStatus :=
  if s = "new" then some .new
  else if s = "analyzing" then some .analyzing
  else if s = "clarifying" then some .clarifying
  else if s = "in_progress" then some .in_progress
  else if s = "review" then some .review
  else if s = "delivering" then some .delivering
  else if s = "delivered" then some .delivered
  else if s = "completed" then some .completed
  else if s = "revision_requested" then some .revision_requested
  else if s = "cancelled" then some .cancelled
  else if s = "failed" then some .failed
  else none

/-- Gig verticals, mirroring the `GigType` enum of `src/models/schemas.py`. -/
inductive GigType
  | writing
  | coding
  | data_entry
  deriving DecidableEq, Repr

/-- The `.value` string of each `GigType` member. -/
def GigType.value : GigType → String
  | .writing => "writing"
  | .coding => "coding"
  | .data_entry => "data_entry"

/-- The `GigType(...)` enum constructor applied to a stored string. -/
def GigType.ofValue (s : String) : Option GigType :=
  if s = "writing" then some .writing
  else if s = "coding" then some .coding
  else if s = "data_entry" then some .data_entry
  else none

/-- The `_TRANSITIONS` table of `src/orchestrator/state_machine.py`:
allowed target statuses for each current status. -/
def allowedTargets : OrderStatus → List OrderStatus
  | .new => [.analyzing, .failed, .cancelled]
  | .analyzing => [.clarifying, .in_progress, .failed, .cancelled]
  | .clarifying => [.in_progress, .failed, .cancelled]
  | .in_progress => [.review, .failed, .cancelled]
  | .review => [.delivering, .in_progress, .failed, .cancelled]
  | .delivering => [.delivered, .failed, .cancelled]
  | .delivered => [.completed, .revision_requested]
  | .revision_requested => [.in_progress, .failed, .cancelled]
  | .completed => []
  | .cancelled => []
  | .failed => [.new]

/-- `OrderStateMachine.can_transition`: pure lookup in the transition table. -/
def can_transition (current target : OrderStatus) : Bool :=
  (allowedTargets current).contains target

/-- One row of the SQLite `orders` table (schema in
`src/models/database.py`).  `requirements` and `deliverable_paths` are the
raw TEXT cells holding JSON documents; timestamps are clock ticks. -/
structure OrdersRow where
  id : String
  fiverr_order_id : String
  gig_type : String
  status : String
  requirements : String
  buyer_username : String
  price : ℚ
  created_at : Nat
  updated_at : Nat
  delivered_at : Option Nat
  deliverable_paths : String
  revision_count : Int
  notes : String
  deriving DecidableEq, Repr

/-- The `fetch_one` lookup `WHERE id = ? OR fiverr_order_id = ?` used by
`OrderStateMachine.transition`, `get_order` and the dispatcher: the first
row either of whose identifier columns matches. -/
def findOrder (db : List OrdersRow) (oid : String) : Option OrdersRow :=
  db.find? (fun r => r.id == oid || r.fiverr_order_id == oid)

/-- Errors raised by `OrderStateMachine.transition`: `notFound` is the
`ValueError("Order not found: ...")`, `invalidStatusValue` the
`ValueError` raised by `OrderStatus(row["status"])` on an unknown stored
status string, `invalidTransition` the `InvalidTransitionError`. -/
inductive TransitionError
  | notFound
  | invalidStatusValue
  | invalidTransition
  deriving DecidableEq, Repr

/-! ### JSON cell codec

`state_machine.transition`, the dispatcher and the order monitor write the
`requirements` / `deliverable_paths` TEXT cells with `json.dumps(list_of_str)`;
`Database._row_to_dict` reads them back with `json.loads`.  The encoder below
is `json.dumps` with its default arguments (`ensure_ascii=True`, separator
`", "`) restricted to lists of strings; the decoder models `json.loads`
restricted to the same document shape (arrays of strings), which is the only
payload these cells ever hold. -/

namespace PyJson

/-- One lowercase hex digit, as produced by Python's `'%04x'` format. -/
def hexDigit (n : Nat) : Char :=
  if n < 10 then Char.ofNat (48 + n) else Char.ofNat (87 + n)

/-- Four-digit lowercase hex rendering of `n < 0x10000`, as in `\uXXXX`. -/
def hex4 (n : Nat) : List Char :=
  [hexDigit (n / 4096 % 16), hexDigit (n / 256 % 16), hexDigit (n / 16 % 16), hexDigit (n % 16)]

/-- `json.dumps` escaping of a single character under `ensure_ascii=True`:
shorthand escapes for the two JSON specials and the five named control
characters, printable ASCII kept literal, everything else `\uXXXX`
(astral characters as a UTF-16 surrogate pair). -/
def escapeChar (c : Char) : List Char :=
  if c = '\\' then ['\\', '\\']
  else if c = '"' then ['\\', '"']
  else if c.toNat = 8 then ['\\', 'b']
  else if c.toNat = 9 then ['\\', 't']
  else if c.toNat = 10 then ['\\', 'n']
  else if c.toNat = 12 then ['\\', 'f']
  else if c.toNat = 13 then ['\\', 'r']
  else if 0x20 ≤ c.toNat ∧ c.toNat ≤ 0x7e then [c]
  else if c.toNat < 0x10000 then '\\' :: 'u' :: hex4 c.toNat
  else
    ('\\' :: 'u' :: hex4 (0xd800 + (c.toNat - 0x10000) / 0x400)) ++
    ('\\' :: 'u' :: hex4 (0xdc00 + (c.toNat - 0x10000) % 0x400))

/-- Escape every character of a string body. -/
def escapeAll : List Char → List Char
  | [] => []
  | c :: cs => escapeChar c ++ escapeAll cs

/-- A JSON string literal for `s`: quote, escaped body, quote. -/
def encodeOne (s : String) : List Char :=
  '"' :: (escapeAll s.data ++ ['"'])

/-- The comma-space separated items of a nonempty JSON array of strings. -/
def encodeItems (x : String) : List String → List Char
  | [] => encodeOne x
  | y :: ys => encodeOne x ++ ',' :: ' ' :: encodeItems y ys

/-- `json.dumps` of a list of strings. -/
def dumpsStringList (l : List String) : String :=
  match l with
  | [] => "[]"
  | x :: xs => ⟨'[' :: (encodeItems x xs ++ [']'])⟩

/-- JSON whitespace as accepted between tokens by `json.loads`. -/
def isWs (c : Char) : Bool :=
  c = ' ' || c = '\t' || c = '\n' || c = '\r'

/-- Drop leading JSON whitespace. -/
def skipWs : List Char → List Char
  | [] => []
  | c :: cs => if isWs c then skipWs cs else c :: cs

/-- Numeric value of one hex digit, upper or lower case. -/
def hexVal (c : Char) : Option Nat :=
  if 48 ≤ c.toNat ∧ c.toNat ≤ 57 then some (c.toNat - 48)
  else if 97 ≤ c.toNat ∧ c.toNat ≤ 102 then some (c.toNat - 87)
  else if 65 ≤ c.toNat ∧ c.toNat ≤ 70 then some (c.toNat - 55)
  else none

/-- Parse exactly four hex digits. -/
def parseHex4 : List Char → Option (Nat × List Char)
  | a :: b :: c :: d :: rest => do
    let va ← hexVal a
    let vb ← hexVal b
    let vc ← hexVal c
    let vd ← hexVal d
    pure (va * 4096 + vb * 256 + vc * 16 + vd, rest)
  | _ => none

/-- Prepend a decoded character to a string-body parse result. -/
def consResult (c : Char) : Option (List Char × List Char) → Option (List Char × List Char)
  | some (cs, rest) => some (c :: cs, rest)
  | none => none

/-- Parse the body of a JSON string literal (after the opening quote) up to
and including the closing quote, decoding escapes; strict mode, so raw
control characters are rejected.  Surrogate-pair escapes are combined into
one character; a lone surrogate escape is rejected (the encoder never emits
one for well-formed text).  `fuel` bounds recursion depth; one unit is spent
per decoded character, so any `fuel` exceeding the character count works. -/
def parseStringBody : Nat → List Char → Option (List Char × List Char)
  | 0, _ => none
  | _ + 1, [] => none
  | fuel + 1, c :: rest =>
    if c = '"' then some ([], rest)
    else if c = '\\' then
      match rest with
      | [] => none
      | e :: rest2 =>
        if e = '"' then consResult '"' (parseStringBody fuel rest2)
        else if e = '\\' then consResult '\\' (parseStringBody fuel rest2)
        else if e = '/' then consResult '/' (parseStringBody fuel rest2)
        else if e = 'b' then consResult '\x08' (parseStringBody fuel rest2)
        else if e = 't' then consResult '\t' (parseStringBody fuel rest2)
        else if e = 'n' then consResult '\n' (parseStringBody fuel rest2)
        else if e = 'f' then consResult '\x0c' (parseStringBody fuel rest2)
        else if e = 'r' then consResult '\x0d' (parseStringBody fuel rest2)
        else if e = 'u' then
          match parseHex4 rest2 with
          | none => none
          | some (n, rest3) =>
            if 0xd800 ≤ n ∧ n < 0xdc00 then
              match rest3 with
              | b1 :: b2 :: rest4 =>
                if b1 = '\\' ∧ b2 = 'u' then
                  match parseHex4 rest4 with
                  | none => none
                  | some (m, rest5) =>
                    if 0xdc00 ≤ m ∧ m < 0xe000 then
                      consResult (Char.ofNat (0x10000 + (n - 0xd800) * 0x400 + (m - 0xdc00)))
                        (parseStringBody fuel rest5)
                    else none
                else none
              | _ => none
            else if 0xdc00 ≤ n ∧ n < 0xe000 then none
            else consResult (Char.ofNat n) (parseStringBody fuel rest3)
        else none
    else if c.toNat < 0x20 then none
    else consResult c (parseStringBody fuel rest)

/-- Parse one JSON string literal including its opening quote. -/
def parseOneString (l : List Char) : Option (String × List Char) :=
  match l with
  | [] => none
  | c :: rest =>
    if c = '"' then
      match parseStringBody (rest.length + 1) rest with
      | some (cs, r) => some (⟨cs⟩, r)
      | none => none
    else none

/-- Parse the comma-separated items of a JSON array of strings, after the
opening bracket (and any whitespace), up to and including the closing
bracket.  One unit of fuel is spent per item. -/
def parseItems : Nat → List Char → Option (List String × List Char)
  | 0, _ => none
  | fuel + 1, l =>
    match parseOneString l with
    | none => none
    | some (s, rest) =>
      match skipWs rest with
      | [] => none
      | c :: r =>
        if c = ']' then some ([s], r)
        else if c = ',' then
          match parseItems fuel (skipWs r) with
          | some (ss, r2) => some (s :: ss, r2)
          | none => none
        else none

/-- `json.loads` restricted to documents that are arrays of strings:
parse the array and require only whitespace to remain. -/
def loadsStringList (str : String) : Option (List String) :=
  match skipWs str.data with
  | [] => none
  | c :: rest =>
    if c = '[' then
      match skipWs rest with
      | [] => none
      | d :: r2 =>
        if d = ']' then
          if skipWs r2 = [] then some [] else none
        else
          match parseItems (rest.length + 1) (d :: r2) with
          | some (ss, r) => if skipWs r = [] then some ss else none
          | none => none
    else none

end PyJson

/-! ### Codec round trip -/

namespace PyJson

theorem hexVal_hexDigit : ∀ k, k < 16 → hexVal (hexDigit k) = some k := by
  decide

theorem parseHex4_hex4 (n : Nat) (rest : List Char) (hn : n < 0x10000) :
    parseHex4 (hex4 n ++ rest) = some (n, rest) := by
  have h1 : n / 4096 % 16 < 16 := Nat.mod_lt _ (by norm_num)
  have h2 : n / 256 % 16 < 16 := Nat.mod_lt _ (by norm_num)
  have h3 : n / 16 % 16 < 16 := Nat.mod_lt _ (by norm_num)
  have h4 : n % 16 < 16 := Nat.mod_lt _ (by norm_num)
  simp only [hex4, List.cons_append, List.nil_append, parseHex4,
    hexVal_hexDigit _ h1, hexVal_hexDigit _ h2, hexVal_hexDigit _ h3, hexVal_hexDigit _ h4,
    Option.bind_eq_bind, Option.some_bind, Option.pure_def, Option.some.injEq, Prod.mk.injEq]
  constructor
  · omega
  · trivial

theorem char_eq_ofNat {c : Char} {n : Nat} (h : c.toNat = n) : c = Char.ofNat n := by
  subst h
  exact (Char.ofNat_toNat c).symm

theorem char_valid_nat (c : Char) :
    c.toNat < 0xd800 ∨ (0xdfff < c.toNat ∧ c.toNat < 0x110000) :=
  c.valid

end PyJson
namespace PyJson

theorem psb_esc_u (f : Nat) (rest : List Char) :
    parseStringBody (f + 1) ('\\' :: 'u' :: rest) =
      (match parseHex4 rest with
      | none => none
      | some (n, rest3) =>
        if 0xd800 ≤ n ∧ n < 0xdc00 then
          match rest3 with
          | b1 :: b2 :: rest4 =>
            if b1 = '\\' ∧ b2 = 'u' then
              match parseHex4 rest4 with
              | none => none
              | some (m, rest5) =>
                if 0xdc00 ≤ m ∧ m < 0xe000 then
                  consResult (Char.ofNat (0x10000 + (n - 0xd800) * 0x400 + (m - 0xdc00)))
                    (parseStringBody f rest5)
                else none
            else none
          | _ => none
        else if 0xdc00 ≤ n ∧ n < 0xe000 then none
        else consResult (Char.ofNat n) (parseStringBody f rest3)) := by
  simp [parseStringBody]

theorem parseStringBody_escapeAll :
    ∀ (cs rest : List Char) (fuel : Nat), cs.length < fuel →
      parseStringBody fuel (escapeAll cs ++ '"' :: rest) = some (cs, rest) := by
  intro cs
  induction cs with
  | nil =>
    intro rest fuel hf
    obtain ⟨f, rfl⟩ : ∃ f, fuel = f + 1 := ⟨fuel - 1, by omega⟩
    simp [escapeAll, parseStringBody]
  | cons c cs ih =>
    intro rest fuel hf
    obtain ⟨f, rfl⟩ : ∃ f, fuel = f + 1 := ⟨fuel - 1, by omega⟩
    have hf' : cs.length < f := by
      simp only [List.length_cons] at hf
      omega
    have hrec := ih rest f hf'
    by_cases h1 : c = '\\'
    · subst h1
      simp [escapeAll, escapeChar, parseStringBody, consResult, hrec]
    by_cases h2 : c = '"'
    · subst h2
      simp [escapeAll, escapeChar, parseStringBody, consResult, hrec]
    by_cases h3 : c.toNat = 8
    · have hc : c = '\x08' := char_eq_ofNat h3
      subst hc
      simp [escapeAll, escapeChar, parseStringBody, consResult, hrec]
    by_cases h4 : c.toNat = 9
    · have hc : c = '\t' := char_eq_ofNat h4
      subst hc
      simp [escapeAll, escapeChar, parseStringBody, consResult, hrec]
    by_cases h5 : c.toNat = 10
    · have hc : c = '\n' := char_eq_ofNat h5
      subst hc
      simp [escapeAll, escapeChar, parseStringBody, consResult, hrec]
    by_cases h6 : c.toNat = 12
    · have hc : c = '\x0c' := char_eq_ofNat h6
      subst hc
      simp [escapeAll, escapeChar, parseStringBody, consResult, hrec]
    by_cases h7 : c.toNat = 13
    · have hc : c = '\x0d' := char_eq_ofNat h7
      subst hc
      simp [escapeAll, escapeChar, parseStringBody, consResult, hrec]
    by_cases h8 : 0x20 ≤ c.toNat ∧ c.toNat ≤ 0x7e
    · have hlt : ¬ c.toNat < 0x20 := by omega
      simp [escapeAll, escapeChar, parseStringBody, consResult, hrec, h1, h2, h3, h4, h5, h6, h7, h8, hlt]
    by_cases h9 : c.toNat < 0x10000
    · have hval := char_valid_nat c
      have hs1 : ¬ (0xd800 ≤ c.toNat ∧ c.toNat < 0xdc00) := by omega
      have hs2 : ¬ (0xdc00 ≤ c.toNat ∧ c.toNat < 0xe000) := by omega
      simp only [escapeAll, escapeChar, h1, h2, h3, h4, h5, h6, h7, h8, h9,
        if_false, if_true, if_neg, if_pos, List.cons_append, List.append_assoc]
      simp [parseStringBody, parseHex4_hex4 c.toNat (escapeAll cs ++ '"' :: rest) h9,
        hs1, hs2, Char.ofNat_toNat, consResult, hrec]
    · have hval := char_valid_nat c
      have hbig : 0x10000 ≤ c.toNat := by omega
      have hlt : c.toNat < 0x110000 := by omega
      set v := c.toNat - 0x10000 with hv
      have hvlt : v < 0x100000 := by omega
      have hhi : 0xd800 + v / 0x400 < 0x10000 := by omega
      have hlo : 0xdc00 + v % 0x400 < 0x10000 := by
        have := Nat.mod_lt v (show 0 < 0x400 by norm_num)
        omega
      have hs1 : 0xd800 ≤ 0xd800 + v / 0x400 ∧ 0xd800 + v / 0x400 < 0xdc00 := by
        have : v / 0x400 < 0x400 := Nat.div_lt_of_lt_mul (by omega)
        omega
      have hs2 : 0xdc00 ≤ 0xdc00 + v % 0x400 ∧ 0xdc00 + v % 0x400 < 0xe000 := by
        have := Nat.mod_lt v (show 0 < 0x400 by norm_num)
        omega
      have harith :
          0x10000 + (0xd800 + v / 0x400 - 0xd800) * 0x400 + (0xdc00 + v % 0x400 - 0xdc00) = c.toNat := by
        have := Nat.div_add_mod v 0x400
        omega
      simp only [escapeAll, escapeChar, h1, h2, h3, h4, h5, h6, h7, h8, h9,
        if_false, if_true, if_neg, if_pos, List.cons_append, List.append_assoc,
        List.nil_append]
      rw [← hv]
      have harith2 : 65536 + v / 1024 * 1024 + v % 1024 = c.toNat := by
        have := Nat.div_add_mod v 1024
        omega
      rw [psb_esc_u,
        parseHex4_hex4 (55296 + v / 1024)
          ('\\' :: 'u' :: (hex4 (56320 + v % 1024) ++ (escapeAll cs ++ '"' :: rest))) hhi]
      simp only [hs1.1, hs1.2, and_self, if_true, if_pos]
      rw [parseHex4_hex4 (56320 + v % 1024) (escapeAll cs ++ '"' :: rest) hlo]
      simp only [show (('\\' : Char) = '\\' ∧ ('u' : Char) = 'u') from by decide, if_true, if_pos,
        hs2.1, hs2.2, and_self]
      rw [harith, Char.ofNat_toNat, hrec]
      simp [consResult]


end PyJson

namespace PyJson

theorem escapeChar_length_pos (c : Char) : 1 ≤ (escapeChar c).length := by
  unfold escapeChar
  split_ifs <;> simp [hex4]

theorem escapeAll_length (cs : List Char) : cs.length ≤ (escapeAll cs).length := by
  induction cs with
  | nil => simp [escapeAll]
  | cons c cs ih =>
    simp only [escapeAll, List.length_cons, List.length_append]
    have := escapeChar_length_pos c
    omega

theorem parseOneString_encodeOne (s : String) (rest : List Char) :
    parseOneString (encodeOne s ++ rest) = some (s, rest) := by
  have hassoc : encodeOne s ++ rest = '"' :: (escapeAll s.data ++ ('"' :: rest)) := by
    simp [encodeOne]
  rw [hassoc]
  have hlen : s.data.length < (escapeAll s.data ++ '"' :: rest).length + 1 := by
    have := escapeAll_length s.data
    simp only [List.length_append, List.length_cons]
    omega
  simp only [parseOneString, if_pos rfl, reduceIte]
  rw [parseStringBody_escapeAll s.data rest _ hlen]

end PyJson

namespace PyJson

theorem encodeItems_starts_quote (x : String) (xs : List String) :
    ∃ t, encodeItems x xs = '"' :: t := by
  cases xs with
  | nil => exact ⟨escapeAll x.data ++ ['"'], rfl⟩
  | cons y ys => exact ⟨(escapeAll x.data ++ ['"']) ++ ',' :: ' ' :: encodeItems y ys, rfl⟩

theorem skipWs_not_ws (c : Char) (l : List Char) (h : isWs c = false) :
    skipWs (c :: l) = c :: l := by
  simp [skipWs, h]

theorem encodeItems_length (x : String) (xs : List String) :
    xs.length ≤ (encodeItems x xs).length := by
  induction xs generalizing x with
  | nil => simp
  | cons y ys ih =>
    simp only [encodeItems, List.length_cons, List.length_append]
    have := ih y
    omega

theorem parseItems_encodeItems :
    ∀ (xs : List String) (x : String) (rest : List Char) (fuel : Nat), xs.length < fuel →
      parseItems fuel (encodeItems x xs ++ ']' :: rest) = some (x :: xs, rest) := by
  intro xs
  induction xs with
  | nil =>
    intro x rest fuel hf
    obtain ⟨f, rfl⟩ : ∃ f, fuel = f + 1 := ⟨fuel - 1, by omega⟩
    simp only [encodeItems, parseItems, parseOneString_encodeOne]
    rw [skipWs_not_ws ']' rest (by decide)]
    simp
  | cons y ys ih =>
    intro x rest fuel hf
    obtain ⟨f, rfl⟩ : ∃ f, fuel = f + 1 := ⟨fuel - 1, by omega⟩
    have hf' : ys.length < f := by
      simp only [List.length_cons] at hf
      omega
    have hx : encodeItems x (y :: ys) ++ ']' :: rest =
        encodeOne x ++ (',' :: ' ' :: (encodeItems y ys ++ ']' :: rest)) := by
      simp [encodeItems]
    rw [hx]
    simp only [parseItems, parseOneString_encodeOne]
    rw [skipWs_not_ws ',' _ (by decide)]
    simp only [show ¬ (',' : Char) = ']' from by decide, if_false, if_pos rfl, reduceIte]
    have hsw : skipWs (' ' :: (encodeItems y ys ++ ']' :: rest)) =
        encodeItems y ys ++ ']' :: rest := by
      obtain ⟨t, ht⟩ := encodeItems_starts_quote y ys
      rw [ht]
      show skipWs (' ' :: ('"' :: t ++ ']' :: rest)) = '"' :: t ++ ']' :: rest
      simp [skipWs, isWs]
    rw [hsw, ih y rest f hf']

theorem loads_dumps (l : List String) :
    loadsStringList (dumpsStringList l) = some l := by
  cases l with
  | nil => rfl
  | cons x xs =>
    have hdata : (dumpsStringList (x :: xs)).data = '[' :: (encodeItems x xs ++ [']']) := rfl
    obtain ⟨t, ht⟩ := encodeItems_starts_quote x xs
    have hbody : encodeItems x xs ++ [']'] = '"' :: (t ++ [']']) := by
      rw [ht]; simp
    simp only [loadsStringList, hdata]
    rw [skipWs_not_ws '[' _ (by decide)]
    simp only [if_pos rfl, reduceIte]
    rw [hbody, skipWs_not_ws '"' _ (by decide)]
    simp only [show ¬ ('"' : Char) = ']' from by decide, if_false, reduceIte]
    have hback : ('"' :: (t ++ [']']) : List Char) = encodeItems x xs ++ ']' :: [] := by
      rw [ht]; simp
    rw [hback, parseItems_encodeItems xs x [] _
      (by
        have := encodeItems_length x xs
        simp only [List.length_append, List.length_cons, List.length_nil]
        omega)]
    simp [skipWs]

end PyJson

/-! ### State machine transition (`OrderStateMachine.transition`) -/

/-- Outcome of one `transition` call: `error` is the raised exception (if
any) and `db` the orders table afterwards.  The source raises before the
`UPDATE` statement executes, so every error case leaves the table as it
was. -/
structure TransitionOutcome where
  error : Option TransitionError
  db : List OrdersRow
  deriving DecidableEq, Repr

/-- The field rewrite performed by `transition`'s single `UPDATE` statement
on the matched row: set status and updated-at, optionally append notes with
a trailing newline (`notes || ? || char(10)`), optionally overwrite the
deliverable-path cell with a fresh JSON dump, stamp `delivered_at` when
entering DELIVERED and bump `revision_count` when entering
REVISION_REQUESTED. -/
def applyTransitionUpdate (r : OrdersRow) (target : OrderStatus) (notes : String)
    (dp : Option (List String)) (now : Nat) : OrdersRow :=
  { r with
    status := target.value
    updated_at := now
    notes := if notes ≠ "" then r.notes ++ notes ++ "\n" else r.notes
    deliverable_paths :=
      match dp with
      | some l => PyJson.dumpsStringList l
      | none => r.deliverable_paths
    delivered_at := if target = .delivered then some now else r.delivered_at
    revision_count :=
      if target = .revision_requested then r.revision_count + 1 else r.revision_count }

/-- `OrderStateMachine.transition`: look the order up by either id, parse
its stored status, reject an edge missing from the transition table, and
otherwise apply the atomic row update (the SQL `UPDATE ... WHERE id = ?`
touches every row whose `id` equals the loaded row's `id`). -/
def transition (db : List OrdersRow) (order_id : String) (target : OrderStatus)
    (notes : String) (dp : Option (List String)) (now : Nat) : TransitionOutcome :=
  match findOrder db order_id with
  | none => ⟨some .notFound, db⟩
  | some row =>
    match OrderStatus.ofValue row.status with
    | none => ⟨some .invalidStatusValue, db⟩
    | some current =>
      if can_transition current target then
        ⟨none, db.map fun r =>
          if r.id == row.id then applyTransitionUpdate r target notes dp now else r⟩
      else
        ⟨some .invalidTransition, db⟩

/-- `OrderStateMachine.get_orders_by_status` restricted to one status:
`SELECT * FROM orders WHERE status IN (...)`. -/
def ordersByStatus (db : List OrdersRow) (s : OrderStatus) : List OrdersRow :=
  db.filter (fun r => r.status == s.value)

/-- A sample stored order used to instantiate theorems on concrete data. -/
def sampleRow : OrdersRow :=
  { id := "o1"
    fiverr_order_id := "FO-12345"
    gig_type := "writing"
    status := "new"
    requirements := "[\"Test requirement\"]"
    buyer_username := "testbuyer"
    price := 25
    created_at := 1
    updated_at := 1
    delivered_at := none
    deliverable_paths := "[]"
    revision_count := 0
    notes := "" }

/-- C1: for every stored table and id, `transition` fails with
`NotFound` when neither identifier column of any row matches, fails with
`InvalidTransition` when the stored row's current status does not list the
target as a successor, and in both error cases returns the orders table
(hence the stored row and its status) unchanged. -/
theorem transition_error_cases (db : List OrdersRow) (oid : String)
    (target : OrderStatus) (notes : String) (dp : Option (List String)) (now : Nat) :
    (findOrder db oid = none →
      transition db oid target notes dp now = ⟨some .notFound, db⟩) ∧
    (∀ r cur, findOrder db oid = some r → OrderStatus.ofValue r.status = some cur →
      can_transition cur target = false →
      transition db oid target notes dp now = ⟨some .invalidTransition, db⟩) := by
  constructor
  · intro h
    simp [transition, h]
  · intro r cur hr hcur hcan
    simp [transition, hr, hcur, hcan]

/-- Witness instantiating `transition_error_cases`: an illegal
NEW → DELIVERED edge on a stored order, and a lookup of an id matching no
row; both leave the single-row table untouched. -/
theorem transition_error_cases_witness :
    transition [sampleRow] "o1" .delivered "" none 5 =
      ⟨some .invalidTransition, [sampleRow]⟩ ∧
    transition [] "missing" .analyzing "" none 5 = ⟨some .notFound, []⟩ :=
  ⟨(transition_error_cases [sampleRow] "o1" .delivered "" none 5).2
      sampleRow .new (by decide) (by decide) (by decide),
    (transition_error_cases [] "missing" .analyzing "" none 5).1 (by decide)⟩

/-- C2: a legal transition of a stored order succeeds and rewrites exactly
the matched row: its status becomes the target's value, its update
timestamp strictly increases (the fresh clock reading is later than the
stored one), entering DELIVERED stamps a non-null delivered timestamp,
entering REVISION_REQUESTED increments the revision count by exactly one,
and the row update never decreases any row's revision count. -/
theorem transition_success (db : List OrdersRow) (oid : String)
    (target : OrderStatus) (notes : String) (dp : Option (List String)) (now : Nat)
    (r : OrdersRow) (cur : OrderStatus)
    (hr : findOrder db oid = some r)
    (hcur : OrderStatus.ofValue r.status = some cur)
    (hcan : can_transition cur target = true)
    (hnow : r.updated_at < now) :
    transition db oid target notes dp now =
      ⟨none, db.map fun x =>
        if x.id == r.id then applyTransitionUpdate x target notes dp now else x⟩ ∧
    (applyTransitionUpdate r target notes dp now).status = target.value ∧
    r.updated_at < (applyTransitionUpdate r target notes dp now).updated_at ∧
    (target = .delivered → (applyTransitionUpdate r target notes dp now).delivered_at ≠ none) ∧
    (target = .revision_requested →
      (applyTransitionUpdate r target notes dp now).revision_count = r.revision_count + 1) ∧
    (∀ x : OrdersRow, x.revision_count ≤ (applyTransitionUpdate x target notes dp now).revision_count) := by
  refine ⟨by simp [transition, hr, hcur, hcan], rfl, hnow, ?_, ?_, ?_⟩
  · intro ht
    subst ht
    simp [applyTransitionUpdate]
  · intro ht
    subst ht
    simp [applyTransitionUpdate]
  · intro x
    simp only [applyTransitionUpdate]
    split <;> omega

/-- Witness instantiating `transition_success`: the legal NEW → ANALYZING
edge on a stored order at a later clock tick. -/
theorem transition_success_witness :
    transition [sampleRow] "FO-12345" .analyzing "" none 7 =
      ⟨none, [sampleRow].map fun x =>
        if x.id == sampleRow.id then applyTransitionUpdate x .analyzing "" none 7 else x⟩ ∧
    (applyTransitionUpdate sampleRow .analyzing "" none 7).status = OrderStatus.analyzing.value ∧
    sampleRow.updated_at < (applyTransitionUpdate sampleRow .analyzing "" none 7).updated_at ∧
    (OrderStatus.analyzing = .delivered →
      (applyTransitionUpdate sampleRow .analyzing "" none 7).delivered_at ≠ none) ∧
    (OrderStatus.analyzing = .revision_requested →
      (applyTransitionUpdate sampleRow .analyzing "" none 7).revision_count =
        sampleRow.revision_count + 1) ∧
    (∀ x : OrdersRow, x.revision_count ≤ (applyTransitionUpdate x .analyzing "" none 7).revision_count) :=
  transition_success [sampleRow] "FO-12345" .analyzing "" none 7 sampleRow .new
    (by decide) (by decide) (by decide) (by decide)

/-! ### Order value object and persistence round trip -/

/-- The pydantic `Order` model of `src/models/schemas.py`.  Enum fields are
the enums themselves, list fields are lists; timestamps are the clock ticks
of the embedding (their ISO round trip through pydantic's datetime
validation is the identity and is not re-modelled here). -/
structure OrderModel where
  id : String
  fiverr_order_id : String
  gig_type : GigType
  status : OrderStatus
  requirements : List String
  buyer_username : String
  price : ℚ
  created_at : Nat
  updated_at : Nat
  delivered_at : Option Nat
  deliverable_paths : List String
  revision_count : Int
  notes : String
  deriving DecidableEq, Repr

/-- Persisting an `Order` into an `orders` row: enum members are stored as
their `.value` strings and the two list fields as `json.dumps` documents,
exactly as every write site in the repository does (state machine,
dispatcher, monitor, tests). -/
def persistOrderRow (o : OrderModel) : OrdersRow :=
  { id := o.id
    fiverr_order_id := o.fiverr_order_id
    gig_type := o.gig_type.value
    status := o.status.value
    requirements := PyJson.dumpsStringList o.requirements
    buyer_username := o.buyer_username
    price := o.price
    created_at := o.created_at
    updated_at := o.updated_at
    delivered_at := o.delivered_at
    deliverable_paths := PyJson.dumpsStringList o.deliverable_paths
    revision_count := o.revision_count
    notes := o.notes }

/-- A dict value for a JSON-typed column after `Database._row_to_dict`:
either the decoded list, or the raw string when `json.loads` failed (the
`except ... pass` branch keeps the string). -/
inductive CellVal
  | str (s : String)
  | strings (l : List String)
  deriving DecidableEq, Repr

/-- The dict produced by `Database._row_to_dict` for an `orders` row:
plain columns are copied, and the `requirements` / `deliverable_paths`
cells are `json.loads`-parsed when possible. -/
structure OrderDict where
  id : String
  fiverr_order_id : String
  gig_type : String
  status : String
  requirements : CellVal
  buyer_username : String
  price : ℚ
  created_at : Nat
  updated_at : Nat
  delivered_at : Option Nat
  deliverable_paths : CellVal
  revision_count : Int
  notes : String
  deriving DecidableEq, Repr

/-- `Database._row_to_dict` on an `orders` row. -/
def row_to_dict (r : OrdersRow) : OrderDict :=
  { id := r.id
    fiverr_order_id := r.fiverr_order_id
    gig_type := r.gig_type
    status := r.status
    requirements :=
      match PyJson.loadsStringList r.requirements with
      | some l => .strings l
      | none => .str r.requirements
    buyer_username := r.buyer_username
    price := r.price
    created_at := r.created_at
    updated_at := r.updated_at
    delivered_at := r.delivered_at
    deliverable_paths :=
      match PyJson.loadsStringList r.deliverable_paths with
      | some l => .strings l
      | none => .str r.deliverable_paths
    revision_count := r.revision_count
    notes := r.notes }

/-- The `Order(...)` construction of `OrderStateMachine.build_order_model`
applied to a row dict, including pydantic's validation: the status and
gig-type strings must name enum members and the two JSON columns must have
decoded to lists; `none` models a pydantic `ValidationError`. -/
def build_order_model (d : OrderDict) : Option OrderModel := do
  let st ← OrderStatus.ofValue d.status
  let gt ← GigType.ofValue d.gig_type
  let reqs ←
    match d.requirements with
    | .strings l => some l
    | .str _ => none
  let dps ←
    match d.deliverable_paths with
    | .strings l => some l
    | .str _ => none
  some
    { id := d.id
      fiverr_order_id := d.fiverr_order_id
      gig_type := gt
      status := st
      requirements := reqs
      buyer_username := d.buyer_username
      price := d.price
      created_at := d.created_at
      updated_at := d.updated_at
      delivered_at := d.delivered_at
      deliverable_paths := dps
      revision_count := d.revision_count
      notes := d.notes }

/-- `OrderStateMachine.build_order_model` itself: `get_order` lookup
followed by the model construction. -/
def sm_build_order_model (db : List OrdersRow) (oid : String) : Option OrderModel :=
  match findOrder db oid with
  | none => none
  | some r => build_order_model (row_to_dict r)

theorem ofValue_value (st : OrderStatus) : OrderStatus.ofValue st.value = some st := by
  cases st <;> rfl

theorem gig_ofValue_value (g : GigType) : GigType.ofValue g.value = some g := by
  cases g <;> rfl

/-- C8: persisting any `Order` value and reloading it through the model
builder reproduces it field for field, including the list-typed
`requirements` and `deliverable_paths` columns which travel through
`json.dumps` / `json.loads`. -/
theorem order_roundtrip (o : OrderModel) :
    build_order_model (row_to_dict (persistOrderRow o)) = some o := by
  simp [build_order_model, row_to_dict, persistOrderRow,
    PyJson.loads_dumps, ofValue_value, gig_ofValue_value]

/-! ### AI client budget guard (`src/ai/client.py`) -/

/-- Token usage reported by one provider response. -/
structure Usage where
  input_tokens : Nat
  output_tokens : Nat
  deriving DecidableEq, Repr

/-- Provider-side exceptions.  The first three are the
`anthropic.APIConnectionError` / `RateLimitError` / `InternalServerError`
classes listed in the `@retry` decorator of `AIClient.complete`; `other`
is any other exception from the call. -/
inductive ApiError
  | connection
  | rateLimit
  | internalServer
  | other
  deriving DecidableEq, Repr

/-- Whether the `@retry` wrapper retries this exception class. -/
def ApiError.retryable : ApiError → Bool
  | .connection => true
  | .rateLimit => true
  | .internalServer => true
  | .other => false

/-- One row of the `api_costs` table; `day` is the UTC calendar day of the
`timestamp` cell, which is what the `timestamp LIKE 'YYYY-MM-DD%'` query
of `get_daily_cost` compares. -/
structure ApiCostRow where
  model : String
  input_tokens : Nat
  output_tokens : Nat
  cost_usd : ℚ
  purpose : String
  day : Nat
  deriving DecidableEq, Repr

/-- `AIClient` state: whether a database was supplied, the persisted
`api_costs` rows, the in-memory daily accumulator, the daily cap and the
configured model slug. -/
structure ClientState where
  hasDb : Bool
  api_costs : List ApiCostRow
  daily_cost_accumulator : ℚ
  daily_cap : ℚ
  model : String
  deriving DecidableEq, Repr

/-- The `_MODEL_PRICING` table with its `_DEFAULT_PRICING` fallback:
USD per million input and output tokens. -/
def modelPricing (m : String) : ℚ × ℚ :=
  if m = "claude-sonnet-4-5-20250929" then (3, 15)
  else if m = "claude-sonnet-4-20250514" then (3, 15)
  else if m = "claude-haiku-3-5-20241022" then (4/5, 4)
  else (3, 15)

/-- `AIClient._calculate_cost`. -/
def calculate_cost (input output : Nat) (m : String) : ℚ :=
  (input : ℚ) / 1000000 * (modelPricing m).1 + (output : ℚ) / 1000000 * (modelPricing m).2

/-- `AIClient.get_daily_cost`: sum of today's persisted cost rows, or the
in-memory accumulator when no database is configured. -/
def get_daily_cost (st : ClientState) (today : Nat) : ℚ :=
  if st.hasDb then
    ((st.api_costs.filter (fun r => r.day == today)).map (fun r => r.cost_usd)).sum
  else st.daily_cost_accumulator

/-- The condition under which `AIClient.check_budget` raises
`BudgetExceededError`. -/
def budget_exceeded (st : ClientState) (today : Nat) : Prop :=
  st.daily_cap ≤ get_daily_cost st today

instance (st : ClientState) (today : Nat) : Decidable (budget_exceeded st today) := by
  unfold budget_exceeded
  infer_instance

/-- `AIClient._log_cost`: add to the in-memory accumulator and, when a
database is configured, append one `api_costs` row. -/
def log_cost (st : ClientState) (input output : Nat) (cost : ℚ) (purpose : String)
    (today : Nat) : ClientState :=
  { st with
    daily_cost_accumulator := st.daily_cost_accumulator + cost
    api_costs :=
      if st.hasDb then
        st.api_costs ++ [⟨st.model, input, output, cost, purpose, today⟩]
      else st.api_costs }

/-- Exceptions escaping `AIClient.complete`. -/
inductive CompleteError
  | budgetExceeded
  | api (e : ApiError)
  deriving DecidableEq, Repr

/-- Result of a `complete` call: the returned text or raised exception,
the client state afterwards, and how many requests actually reached the
provider. -/
structure CompleteResult where
  result : Except CompleteError String
  state : ClientState
  provider_calls : Nat
  deriving Repr

/-- The body of `AIClient.complete` (one un-retried attempt):
`check_budget` first — raising before any request is issued — then the
provider call, then cost computation and `_log_cost`. -/
def completeBody (st : ClientState) (today : Nat)
    (resp : Except ApiError (Usage × String)) (purpose : String) : CompleteResult :=
  if budget_exceeded st today then ⟨.error .budgetExceeded, st, 0⟩
  else
    match resp with
    | .error e => ⟨.error (.api e), st, 1⟩
    | .ok (u, text) =>
      let cost := calculate_cost u.input_tokens u.output_tokens st.model
      ⟨.ok text, log_cost st u.input_tokens u.output_tokens cost purpose today, 1⟩

/-- The `@retry(max_attempts=3, ...)` wrapper applied to the body: an
attempt whose exception class is in the retry tuple is re-run (with the
next oracle response) while attempts remain; any other exception —
including `BudgetExceededError`, which is not in the tuple — propagates
immediately. -/
def completeRetry (today : Nat) (purpose : String) :
    Nat → List (Except ApiError (Usage × String)) → ClientState → CompleteResult
  | 0, _, st => ⟨.error (.api .connection), st, 0⟩
  | attempts + 1, responses, st =>
    let r := completeBody st today (responses.headD (.error .connection)) purpose
    match r.result with
    | .error (.api e) =>
      if e.retryable ∧ 0 < attempts then
        let r2 := completeRetry today purpose attempts responses.tail r.state
        ⟨r2.result, r2.state, r.provider_calls + r2.provider_calls⟩
      else r
    | _ => r

/-- `AIClient.complete` as invoked: three attempts, provider responses
drawn from the oracle list in order. -/
def complete (st : ClientState) (today : Nat) (purpose : String)
    (responses : List (Except ApiError (Usage × String))) : CompleteResult :=
  completeRetry today purpose 3 responses st

theorem completeRetry_error_state (today : Nat) (p : String) :
    ∀ (attempts : Nat) (responses : List (Except ApiError (Usage × String)))
      (st : ClientState) (e : CompleteError),
      (completeRetry today p attempts responses st).result = .error e →
      (completeRetry today p attempts responses st).state = st := by
  intro attempts
  induction attempts with
  | zero => intro responses st e _; rfl
  | succ n ih =>
    intro responses st e h
    by_cases hb : budget_exceeded st today
    · simp [completeRetry, completeBody, hb]
    · cases hresp : responses.headD (.error .connection) with
      | error e' =>
        have hresp2 : responses.head?.getD (Except.error ApiError.connection) = .error e' := by
          simpa using hresp
        by_cases hr : e'.retryable ∧ 0 < n
        · have hstep : completeRetry today p (n + 1) responses st =
              ⟨(completeRetry today p n responses.tail st).result,
               (completeRetry today p n responses.tail st).state,
               1 + (completeRetry today p n responses.tail st).provider_calls⟩ := by
            simp [completeRetry, completeBody, hb, hresp2, hr]
          rw [hstep] at h ⊢
          exact ih responses.tail st e h
        · simp [completeRetry, completeBody, hb, hresp2, hr]
      | ok ut =>
        have hresp2 : responses.head?.getD (Except.error ApiError.connection) = .ok ut := by
          simpa using hresp
        exfalso
        have : (completeRetry today p (n + 1) responses st).result = .ok ut.2 := by
          simp [completeRetry, completeBody, hb, hresp2]
        rw [this] at h
        exact Except.noConfusion h

theorem completeRetry_ok_spec (today : Nat) (p : String) :
    ∀ (attempts : Nat) (responses : List (Except ApiError (Usage × String)))
      (st : ClientState) (text : String),
      (completeRetry today p attempts responses st).result = .ok text →
      ∃ u : Usage, (completeRetry today p attempts responses st).state =
        log_cost st u.input_tokens u.output_tokens
          (calculate_cost u.input_tokens u.output_tokens st.model) p today := by
  intro attempts
  induction attempts with
  | zero =>
    intro responses st text h
    exact Except.noConfusion h
  | succ n ih =>
    intro responses st text h
    by_cases hb : budget_exceeded st today
    · exfalso
      have : (completeRetry today p (n + 1) responses st).result = .error .budgetExceeded := by
        simp [completeRetry, completeBody, hb]
      rw [this] at h
      exact Except.noConfusion h
    · cases hresp : responses.headD (.error .connection) with
      | error e' =>
        have hresp2 : responses.head?.getD (Except.error ApiError.connection) = .error e' := by
          simpa using hresp
        by_cases hr : e'.retryable ∧ 0 < n
        · have hstep : completeRetry today p (n + 1) responses st =
              ⟨(completeRetry today p n responses.tail st).result,
               (completeRetry today p n responses.tail st).state,
               1 + (completeRetry today p n responses.tail st).provider_calls⟩ := by
            simp [completeRetry, completeBody, hb, hresp2, hr]
          rw [hstep] at h ⊢
          exact ih responses.tail st text h
        · exfalso
          have : (completeRetry today p (n + 1) responses st).result = .error (.api e') := by
            simp [completeRetry, completeBody, hb, hresp2, hr]
          rw [this] at h
          exact Except.noConfusion h
      | ok ut =>
        have hresp2 : responses.head?.getD (Except.error ApiError.connection) = .ok ut := by
          simpa using hresp
        refine ⟨ut.1, ?_⟩
        simp [completeRetry, completeBody, hb, hresp2]

/-- Repeated successful `complete` calls, each with the same provider
response oracle. -/
def iterateCalls (today : Nat) (purpose : String)
    (resp : Except ApiError (Usage × String)) (st : ClientState) : Nat → ClientState
  | 0 => st
  | n + 1 => (complete (iterateCalls today purpose resp st n) today purpose [resp]).state

theorem daily_sum_replicate (N : Nat) (rec : ApiCostRow) (today : Nat)
    (hday : rec.day = today) :
    (((List.replicate N rec).filter (fun r => r.day == today)).map
      (fun r => r.cost_usd)).sum = N * rec.cost_usd := by
  induction N with
  | zero => simp
  | succ n ih =>
    simp only [List.replicate_succ, List.filter_cons, hday, beq_self_eq_true, if_true,
      List.map_cons, List.sum_cons, ih]
    push_cast
    ring

theorem calc_cost_default : calculate_cost 200 0 "claude-sonnet-4-5-20250929" = 3 / 5000 := by
  norm_num [calculate_cost, modelPricing]

theorem iterateCalls_closed (st : ClientState) (today : Nat) (p : String)
    (hdb : st.hasDb = true) (hmodel : st.model = "claude-sonnet-4-5-20250929")
    (hcosts : st.api_costs = []) :
    ∀ N : Nat, (N : ℚ) * (3 / 5000) ≤ st.daily_cap →
      iterateCalls today p (.ok (⟨200, 0⟩, "ok")) st N =
        { st with
          api_costs := List.replicate N ⟨st.model, 200, 0, 3 / 5000, p, today⟩
          daily_cost_accumulator := st.daily_cost_accumulator + N * (3 / 5000) } := by
  obtain ⟨hasDb, costs, acc, cap, model⟩ := st
  simp only at hdb hmodel hcosts
  subst hdb hmodel hcosts
  intro N
  induction N with
  | zero =>
    intro _
    simp only [iterateCalls, List.replicate_zero, Nat.cast_zero, zero_mul, add_zero]
  | succ n ih =>
    intro hcap
    have hcap' : (n : ℚ) * (3 / 5000) ≤ cap := by
      push_cast at hcap ⊢
      nlinarith
    have hstep := ih hcap'
    simp only [iterateCalls, hstep]
    have hspend : get_daily_cost
        { hasDb := true
          api_costs := List.replicate n ⟨"claude-sonnet-4-5-20250929", 200, 0, 3 / 5000, p, today⟩
          daily_cost_accumulator := acc + n * (3 / 5000)
          daily_cap := cap
          model := "claude-sonnet-4-5-20250929" } today = n * (3 / 5000) := by
      simp only [get_daily_cost, if_true,
        daily_sum_replicate n ⟨"claude-sonnet-4-5-20250929", 200, 0, 3 / 5000, p, today⟩ today rfl]
    have hb : ¬ budget_exceeded
        { hasDb := true
          api_costs := List.replicate n ⟨"claude-sonnet-4-5-20250929", 200, 0, 3 / 5000, p, today⟩
          daily_cost_accumulator := acc + n * (3 / 5000)
          daily_cap := cap
          model := "claude-sonnet-4-5-20250929" } today := by
      simp only [budget_exceeded, hspend, not_le]
      push_cast at hcap
      nlinarith
    simp only [complete, completeRetry, completeBody, hb, if_false, reduceIte,
      List.headD_cons, log_cost, if_true, calc_cost_default]
    congr 1
    · rw [← List.replicate_succ']
    · push_cast
      ring

/-- C3: the budget guard around paid calls.  With the daily cap already
reached, `complete` raises `BudgetExceeded` before any request reaches the
provider, leaving the client state (hence the cost ledger) untouched;
every successful call appends exactly one `api_costs` record; a call that
raises (including one whose attempts were retried and then exhausted)
appends none; and `N` successful calls of 200 input tokens on the default
model on one UTC day leave a daily spend of exactly `N` times $0.0006. -/
theorem budget_guard_spec (st : ClientState) (today : Nat) (purpose : String)
    (responses : List (Except ApiError (Usage × String))) :
    (budget_exceeded st today →
      complete st today purpose responses = ⟨.error .budgetExceeded, st, 0⟩) ∧
    (∀ text, st.hasDb = true → (complete st today purpose responses).result = .ok text →
      ∃ rec, (complete st today purpose responses).state.api_costs =
        st.api_costs ++ [rec]) ∧
    (∀ e, (complete st today purpose responses).result = .error e →
      (complete st today purpose responses).state.api_costs = st.api_costs) ∧
    (st.hasDb = true → st.api_costs = [] → st.model = "claude-sonnet-4-5-20250929" →
      ∀ N : Nat, (N : ℚ) * (3 / 5000) ≤ st.daily_cap →
        get_daily_cost (iterateCalls today purpose (.ok (⟨200, 0⟩, "ok")) st N) today =
          N * (3 / 5000)) := by
  refine ⟨?_, ?_, ?_, ?_⟩
  · intro hb
    simp [complete, completeRetry, completeBody, hb]
  · intro text hdb hok
    obtain ⟨u, hu⟩ := completeRetry_ok_spec today purpose 3 responses st text hok
    refine ⟨⟨st.model, u.input_tokens, u.output_tokens,
      calculate_cost u.input_tokens u.output_tokens st.model, purpose, today⟩, ?_⟩
    rw [show (complete st today purpose responses).state =
      (completeRetry today purpose 3 responses st).state from rfl, hu]
    simp [log_cost, hdb]
  · intro e herr
    rw [show (complete st today purpose responses).state =
      (completeRetry today purpose 3 responses st).state from rfl,
      completeRetry_error_state today purpose 3 responses st e herr]
  · intro hdb hmodel hcosts N hcap
    rw [iterateCalls_closed st today purpose hdb hcosts hmodel N hcap]
    simp only [get_daily_cost, hdb, if_true,
      daily_sum_replicate N ⟨st.model, 200, 0, 3 / 5000, purpose, today⟩ today rfl]

/-- A client state whose daily cap is already consumed. -/
def cappedClient : ClientState :=
  { hasDb := false
    api_costs := []
    daily_cost_accumulator := 5
    daily_cap := 5
    model := "claude-sonnet-4-5-20250929" }

/-- A fresh client state with budget headroom. -/
def freshClient : ClientState :=
  { hasDb := true
    api_costs := []
    daily_cost_accumulator := 0
    daily_cap := 5
    model := "claude-sonnet-4-5-20250929" }

/-- Witness instantiating `budget_guard_spec`: a capped client whose call
fails with `BudgetExceeded` and records nothing; a call that is retried
once (connection error) and then succeeds, appending exactly one cost row;
a call whose attempts all fail, appending none; and three $0.0006 calls
summing to $0.0018. -/
theorem budget_guard_spec_witness :
    complete cappedClient 0 "purpose" [] = ⟨.error .budgetExceeded, cappedClient, 0⟩ ∧
    (∃ rec, (complete freshClient 0 "purpose"
        [.error .connection, .ok (⟨200, 0⟩, "hello")]).state.api_costs =
      freshClient.api_costs ++ [rec]) ∧
    (complete freshClient 0 "purpose" [.error .other]).state.api_costs =
      freshClient.api_costs ∧
    get_daily_cost (iterateCalls 0 "purpose" (.ok (⟨200, 0⟩, "ok")) freshClient 3) 0 =
      (3 : Nat) * (3 / 5000) :=
  ⟨(budget_guard_spec cappedClient 0 "purpose" []).1 (by decide),
    (budget_guard_spec freshClient 0 "purpose"
      [.error .connection, .ok (⟨200, 0⟩, "hello")]).2.1 "hello" rfl rfl,
    (budget_guard_spec freshClient 0 "purpose" [.error .other]).2.2.1
      (.api .other) rfl,
    (budget_guard_spec freshClient 0 "purpose" [.error .other]).2.2.2
      rfl rfl rfl 3 (by norm_num [freshClient])⟩

/-! ### Dispatcher (`src/orchestrator/dispatcher.py`) -/

/-- The `OrderAnalysis` fields the dispatcher consumes. -/
structure Analysis where
  gig_type : GigType
  requirements : List String
  needs_clarification : Bool
  clarification_questions : List String
  deriving DecidableEq, Repr

/-- The `DeliveryPayload` pair handed from the dispatcher to the
scheduler's delivery step. -/
structure DeliveryPayload where
  message : String
  file_paths : List String
  deriving DecidableEq, Repr

/-- Exceptions that can escape dispatcher or scheduler code into the
caller: a state-machine error raised by an unguarded `transition` call, an
exception raised by an unguarded Communicator call, or one from an
unguarded external-collaborator call. -/
inductive Exc
  | transitionFailure (e : TransitionError)
  | communicator
  | collaborator
  deriving DecidableEq, Repr

/-- Observable events of a run, used to state claims about which
collaborators were invoked and which transitions were performed. -/
inductive Event
  | transitioned (order_id : String) (target : OrderStatus)
  | analyzer_called (order_id : String)
  | worker_called (order_id : String)
  | revision_called (order_id : String)
  | communicator_called (order_id : String)
  | handled_new_order (fiverr_id : String)
  deriving DecidableEq, Repr

/-- Mutable world threaded through the pipeline: the `orders` table and
the wall-clock tick (each `datetime.now()` reads and advances it). -/
structure World where
  db : List OrdersRow
  clock : Nat
  deriving DecidableEq, Repr

/-- The collaborator oracle bundle consumed by the dispatcher: analyzer,
communicator message generators, the worker registry and the revision
worker.  `Except.error ()` is the oracle raising at that call. -/
structure DispatcherEnv where
  analyze : String → String → ℚ → String → Except Unit Analysis
  generate_clarification : String → List String → String → String → Except Unit String
  generate_delivery_message : String → String → String → String → Except Unit String
  generate_revision_response : String → String → Except Unit String
  generate_acknowledgment_msg : String → String → String → Except Unit String
  workers : GigType → Option (OrderModel → Except Unit (List String))
  revision_process : OrderModel → String → Except Unit (List String)

/-- One `self._sm.transition(...)` call inside the pipeline: run the
state-machine transition at the current tick, advance the clock, and log
the transition event when it succeeded. -/
def smTransition (w : World) (oid : String) (target : OrderStatus) (notes : String)
    (dp : Option (List String)) : TransitionOutcome × World × List Event :=
  let out := transition w.db oid target notes dp w.clock
  (out, ⟨out.db, w.clock + 1⟩,
    match out.error with
    | none => [.transitioned oid target]
    | some _ => [])

/-- The dispatcher's direct `UPDATE orders SET gig_type = ?, requirements
= ?, updated_at = ? WHERE id = ? OR fiverr_order_id = ?` after analysis. -/
def updateAnalysisRow (db : List OrdersRow) (oid : String) (gigValue : String)
    (reqs : List String) (now : Nat) : List OrdersRow :=
  db.map fun r =>
    if r.id == oid || r.fiverr_order_id == oid then
      { r with
        gig_type := gigValue
        requirements := PyJson.dumpsStringList reqs
        updated_at := now }
    else r

/-- The result of one dispatcher entry point: the value returned or the
exception propagated, the world afterwards, and the event log. -/
structure DispatchOut where
  result : Except Exc (Option DeliveryPayload)
  world : World
  events : List Event
  deriving Repr

/-- The basename of a path string, as `PurePath.name` /
`p.split("/")[-1]` produce for the path strings this system builds. -/
def baseName (p : String) : String :=
  (p.splitOn "/").getLastD p

/-- `Dispatcher.process_new_order`: ANALYZING transition (unguarded), row
load, analysis (guarded, FAILED on raise), analysis-result persistence,
then either the clarification path (CLARIFYING, clarification message,
empty-file payload, no worker) or the work path (IN_PROGRESS, model build,
worker lookup and execution with FAILED conversion, REVIEW with the
deliverable paths, delivery message).  The Communicator calls and the
non-except `transition` calls are not wrapped in any `try`, so their
exceptions propagate as `Except.error`. -/
def process_new_order (env : DispatcherEnv) (w : World)
    (order_id requirements_text gig_title : String) : DispatchOut :=
  let (t1, w1, ev1) := smTransition w order_id .analyzing "" none
  match t1.error with
  | some e => ⟨.error (.transitionFailure e), w1, ev1⟩
  | none =>
    match findOrder w1.db order_id with
    | none => ⟨.ok none, w1, ev1⟩
    | some row =>
      let ev2 := ev1 ++ [.analyzer_called order_id]
      match env.analyze requirements_text gig_title row.price row.buyer_username with
      | .error _ =>
        let (t2, w2, ev3) := smTransition w1 order_id .failed "Analysis failed" none
        match t2.error with
        | some e => ⟨.error (.transitionFailure e), w2, ev2 ++ ev3⟩
        | none => ⟨.ok none, w2, ev2 ++ ev3⟩
      | .ok analysis =>
        let w2 : World :=
          ⟨updateAnalysisRow w1.db order_id analysis.gig_type.value
            analysis.requirements w1.clock, w1.clock + 1⟩
        if analysis.needs_clarification ∧ analysis.clarification_questions ≠ [] then
          let (t3, w3, ev3) := smTransition w2 order_id .clarifying "" none
          match t3.error with
          | some e => ⟨.error (.transitionFailure e), w3, ev2 ++ ev3⟩
          | none =>
            let ev4 := ev2 ++ ev3 ++ [.communicator_called order_id]
            match env.generate_clarification row.buyer_username
                analysis.clarification_questions analysis.gig_type.value requirements_text with
            | .error _ => ⟨.error .communicator, w3, ev4⟩
            | .ok msg => ⟨.ok (some ⟨msg, []⟩), w3, ev4⟩
        else
          let (t3, w3, ev3) := smTransition w2 order_id .in_progress "" none
          match t3.error with
          | some e => ⟨.error (.transitionFailure e), w3, ev2 ++ ev3⟩
          | none =>
            match sm_build_order_model w3.db order_id with
            | none => ⟨.ok none, w3, ev2 ++ ev3⟩
            | some om =>
              match env.workers analysis.gig_type with
              | none =>
                let (t4, w4, ev4) := smTransition w3 order_id .failed
                  ("No worker for gig type: " ++ analysis.gig_type.value) none
                match t4.error with
                | some e => ⟨.error (.transitionFailure e), w4, ev2 ++ ev3 ++ ev4⟩
                | none => ⟨.ok none, w4, ev2 ++ ev3 ++ ev4⟩
              | some workerProcess =>
                let ev4 := ev2 ++ ev3 ++ [.worker_called order_id]
                match workerProcess om with
                | .error _ =>
                  let (t5, w5, ev5) := smTransition w3 order_id .failed
                    "Worker execution failed" none
                  match t5.error with
                  | some e => ⟨.error (.transitionFailure e), w5, ev4 ++ ev5⟩
                  | none => ⟨.ok none, w5, ev4 ++ ev5⟩
                | .ok paths =>
                  let (t5, w5, ev5) := smTransition w3 order_id .review "" (some paths)
                  match t5.error with
                  | some e => ⟨.error (.transitionFailure e), w5, ev4 ++ ev5⟩
                  | none =>
                    let fileNames := String.intercalate ", " (paths.map baseName)
                    let summary := "Completed " ++ analysis.gig_type.value ++
                      " order with " ++ toString paths.length ++ " file(s)"
                    let ev6 := ev4 ++ ev5 ++ [.communicator_called order_id]
                    match env.generate_delivery_message row.buyer_username
                        analysis.gig_type.value summary fileNames with
                    | .error _ => ⟨.error .communicator, w5, ev6⟩
                    | .ok msg => ⟨.ok (some ⟨msg, paths⟩), w5, ev6⟩

/-- `Dispatcher.process_revision`: IN_PROGRESS transition (unguarded),
model build, revision worker (guarded, FAILED on raise), REVIEW with the
new paths (unguarded), revision-acknowledgment message (unguarded). -/
def process_revision (env : DispatcherEnv) (w : World)
    (order_id feedback : String) : DispatchOut :=
  let (t1, w1, ev1) := smTransition w order_id .in_progress "" none
  match t1.error with
  | some e => ⟨.error (.transitionFailure e), w1, ev1⟩
  | none =>
    match sm_build_order_model w1.db order_id with
    | none => ⟨.ok none, w1, ev1⟩
    | some om =>
      let ev2 := ev1 ++ [.revision_called order_id]
      match env.revision_process om feedback with
      | .error _ =>
        let (t2, w2, ev3) := smTransition w1 order_id .failed "Revision worker failed" none
        match t2.error with
        | some e => ⟨.error (.transitionFailure e), w2, ev2 ++ ev3⟩
        | none => ⟨.ok none, w2, ev2 ++ ev3⟩
      | .ok paths =>
        let (t2, w2, ev3) := smTransition w1 order_id .review "" (some paths)
        match t2.error with
        | some e => ⟨.error (.transitionFailure e), w2, ev2 ++ ev3⟩
        | none =>
          let ev4 := ev2 ++ ev3 ++ [.communicator_called order_id]
          match env.generate_revision_response om.buyer_username
              ("Applied revision based on feedback: " ++ feedback.take 200) with
          | .error _ => ⟨.error .communicator, w2, ev4⟩
          | .ok msg => ⟨.ok (some ⟨msg, paths⟩), w2, ev4⟩

/-- Result of `Dispatcher.generate_acknowledgment`. -/
structure AckOut where
  result : Except Exc (Option String)
  events : List Event
  deriving Repr

/-- `Dispatcher.generate_acknowledgment`: load the row dict, summarise its
requirements (placeholder when empty) and ask the Communicator — an
unguarded call whose exception propagates. -/
def generate_acknowledgment (env : DispatcherEnv) (db : List OrdersRow)
    (order_id : String) : AckOut :=
  match findOrder db order_id with
  | none => ⟨.ok none, []⟩
  | some row =>
    let summary :=
      match (row_to_dict row).requirements with
      | .strings l =>
        if l ≠ [] then String.intercalate "; " l else "As described in order"
      | .str s => s
    match env.generate_acknowledgment_msg row.buyer_username summary row.gig_type with
    | .error _ => ⟨.error .communicator, [.communicator_called order_id]⟩
    | .ok m => ⟨.ok (some m), [.communicator_called order_id]⟩

/-- Whether an event is a performed transition. -/
def isTransitionEvent : Event → Bool
  | .transitioned _ _ => true
  | _ => false

theorem findOrder_pred {db : List OrdersRow} {k : String} {r : OrdersRow}
    (h : findOrder db k = some r) : (r.id == k || r.fiverr_order_id == k) = true := by
  unfold findOrder at h
  simpa using List.find?_some h

theorem findOrder_mem {db : List OrdersRow} {k : String} {r : OrdersRow}
    (h : findOrder db k = some r) : r ∈ db := by
  unfold findOrder at h
  exact List.mem_of_find?_eq_some h

theorem findOrder_map_keys (db : List OrdersRow) (f : OrdersRow → OrdersRow) (k : String)
    (hf : ∀ x, (f x).id = x.id ∧ (f x).fiverr_order_id = x.fiverr_order_id) :
    findOrder (db.map f) k = (findOrder db k).map f := by
  unfold findOrder
  have hp : ((fun r : OrdersRow => r.id == k || r.fiverr_order_id == k) ∘ f) =
      (fun r : OrdersRow => r.id == k || r.fiverr_order_id == k) := by
    funext x
    simp [Function.comp, (hf x).1, (hf x).2]
  rw [List.find?_map, hp]

theorem applyTransitionUpdate_keys (x : OrdersRow) (t : OrderStatus) (n : String)
    (d : Option (List String)) (now : Nat) :
    (applyTransitionUpdate x t n d now).id = x.id ∧
    (applyTransitionUpdate x t n d now).fiverr_order_id = x.fiverr_order_id :=
  ⟨rfl, rfl⟩

theorem ite_row_keys (cond : Prop) [Decidable cond] (x y : OrdersRow)
    (hid : y.id = x.id) (hfv : y.fiverr_order_id = x.fiverr_order_id) :
    (if cond then y else x).id = x.id ∧
    (if cond then y else x).fiverr_order_id = x.fiverr_order_id := by
  by_cases h : cond <;> simp [h, hid, hfv]

/-- C5: on a stored NEW order whose analysis requests clarification with at
least one question, `process_new_order` performs exactly the transitions
NEW to ANALYZING to CLARIFYING, never invokes the worker, and returns the
clarification Communicator's message with no file paths. -/
theorem clarification_path (env : DispatcherEnv) (w : World) (oid rt gt : String)
    (r : OrdersRow) (analysis : Analysis) (msg : String)
    (hr : findOrder w.db oid = some r)
    (hst : r.status = OrderStatus.new.value)
    (han : env.analyze rt gt r.price r.buyer_username = .ok analysis)
    (hneed : analysis.needs_clarification = true)
    (hq : analysis.clarification_questions ≠ [])
    (hclar : env.generate_clarification r.buyer_username analysis.clarification_questions
      analysis.gig_type.value rt = .ok msg) :
    (process_new_order env w oid rt gt).result = .ok (some ⟨msg, []⟩) ∧
    ((process_new_order env w oid rt gt).events.filter isTransitionEvent) =
      [.transitioned oid .analyzing, .transitioned oid .clarifying] ∧
    (∀ k, Event.worker_called k ∉ (process_new_order env w oid rt gt).events) := by
  have hkey := findOrder_pred hr
  set f1 : OrdersRow → OrdersRow :=
    fun x => if x.id == r.id then applyTransitionUpdate x .analyzing "" none w.clock else x with hf1
  have hf1keys : ∀ x, (f1 x).id = x.id ∧ (f1 x).fiverr_order_id = x.fiverr_order_id := by
    intro x
    rw [hf1]
    exact ite_row_keys _ _ _ rfl rfl
  have hov1 : OrderStatus.ofValue r.status = some OrderStatus.new := by
    rw [hst]
    rfl
  have ht1 : transition w.db oid .analyzing "" none w.clock = ⟨none, w.db.map f1⟩ := by
    rw [hf1]
    simp only [transition, hr, hov1]
    rfl
  set r1 : OrdersRow := applyTransitionUpdate r .analyzing "" none w.clock with hr1
  have hfind1 : findOrder (w.db.map f1) oid = some r1 := by
    rw [findOrder_map_keys w.db f1 oid hf1keys, hr]
    show some (f1 r) = some r1
    rw [hf1]
    show some (if (r.id == r.id) = true then
      applyTransitionUpdate r .analyzing "" none w.clock else r) = some r1
    rw [if_pos (beq_self_eq_true r.id), hr1]
  have hprice : r1.price = r.price := rfl
  have hbuyer : r1.buyer_username = r.buyer_username := rfl
  set db2 : List OrdersRow := updateAnalysisRow (w.db.map f1) oid analysis.gig_type.value
    analysis.requirements (w.clock + 1) with hdb2
  set f2 : OrdersRow → OrdersRow :=
    fun x => if x.id == oid || x.fiverr_order_id == oid then
      { x with
        gig_type := analysis.gig_type.value
        requirements := PyJson.dumpsStringList analysis.requirements
        updated_at := w.clock + 1 }
    else x with hf2
  have hf2keys : ∀ x, (f2 x).id = x.id ∧ (f2 x).fiverr_order_id = x.fiverr_order_id := by
    intro x
    rw [hf2]
    exact ite_row_keys _ _ _ rfl rfl
  have hdb2map : db2 = (w.db.map f1).map f2 := rfl
  have hr1key : (r1.id == oid || r1.fiverr_order_id == oid) = true := hkey
  set r2 : OrdersRow :=
    { r1 with
      gig_type := analysis.gig_type.value
      requirements := PyJson.dumpsStringList analysis.requirements
      updated_at := w.clock + 1 } with hr2
  have hfind2 : findOrder db2 oid = some r2 := by
    rw [hdb2map, findOrder_map_keys _ f2 oid hf2keys, hfind1]
    show some (f2 r1) = some r2
    rw [hf2]
    show some (if (r1.id == oid || r1.fiverr_order_id == oid) = true then
      { r1 with
        gig_type := analysis.gig_type.value
        requirements := PyJson.dumpsStringList analysis.requirements
        updated_at := w.clock + 1 }
      else r1) = some r2
    rw [if_pos hr1key, hr2]
  have hov2 : OrderStatus.ofValue r2.status = some OrderStatus.analyzing := rfl
  have ht3 : transition db2 oid .clarifying "" none (w.clock + 1 + 1) =
      ⟨none, db2.map fun x =>
        if x.id == r2.id then applyTransitionUpdate x .clarifying "" none (w.clock + 1 + 1)
        else x⟩ := by
    simp only [transition, hfind2, hov2]
    rfl
  have hout : process_new_order env w oid rt gt =
      ⟨.ok (some ⟨msg, []⟩),
       ⟨(db2.map fun x =>
          if x.id == r2.id then applyTransitionUpdate x .clarifying "" none (w.clock + 1 + 1)
          else x), w.clock + 1 + 1 + 1⟩,
       [.transitioned oid .analyzing, .analyzer_called oid,
        .transitioned oid .clarifying, .communicator_called oid]⟩ := by
    simp only [process_new_order, smTransition, ht1, hfind1, hprice, hbuyer, han,
      hneed, hq, ne_eq, not_false_iff, and_self, if_true, reduceIte, ← hdb2, ht3, hclar,
      List.nil_append, List.cons_append, List.append_nil]
  rw [hout]
  refine ⟨rfl, rfl, ?_⟩
  intro k
  simp [isTransitionEvent]

theorem transition_step (db : List OrdersRow) (oid : String) (r : OrdersRow)
    (cur target : OrderStatus) (notes : String) (dp : Option (List String)) (now : Nat)
    (hr : findOrder db oid = some r)
    (hov : OrderStatus.ofValue r.status = some cur)
    (hcan : can_transition cur target = true) :
    transition db oid target notes dp now =
      ⟨none, db.map fun x =>
        if x.id == r.id then applyTransitionUpdate x target notes dp now else x⟩ := by
  simp only [transition, hr, hov, hcan, if_true, reduceIte]

theorem transition_map_keys (rid : String) (target : OrderStatus) (notes : String)
    (dp : Option (List String)) (now : Nat) :
    ∀ x : OrdersRow,
      ((fun x : OrdersRow =>
        if x.id == rid then applyTransitionUpdate x target notes dp now else x) x).id = x.id ∧
      ((fun x : OrdersRow =>
        if x.id == rid then applyTransitionUpdate x target notes dp now else x) x).fiverr_order_id =
        x.fiverr_order_id :=
  fun x => ite_row_keys _ _ _ rfl rfl

theorem findOrder_map_found (db : List OrdersRow) (oid : String) (r : OrdersRow)
    (f : OrdersRow → OrdersRow)
    (hr : findOrder db oid = some r)
    (hf : ∀ x, (f x).id = x.id ∧ (f x).fiverr_order_id = x.fiverr_order_id) :
    findOrder (db.map f) oid = some (f r) := by
  rw [findOrder_map_keys db f oid hf, hr]
  rfl

/-- C4 (amended): the Dispatcher's try/except blocks cover the analyzer,
worker and revision-worker awaits — each such failure is converted into a
FAILED transition plus a `None` return — but the Communicator calls are
not wrapped, so a raising clarification Communicator escapes
`process_new_order` to its caller. -/
theorem dispatcher_exception_policy (env : DispatcherEnv) (w : World) (oid rt gt fb : String) :
    (∀ r, findOrder w.db oid = some r → r.status = OrderStatus.new.value →
      env.analyze rt gt r.price r.buyer_username = .error () →
      (process_new_order env w oid rt gt).result = .ok none ∧
      ∃ rf, findOrder (process_new_order env w oid rt gt).world.db oid = some rf ∧
        rf.status = OrderStatus.failed.value) ∧
    (∀ r analysis wf dps, findOrder w.db oid = some r → r.status = OrderStatus.new.value →
      env.analyze rt gt r.price r.buyer_username = .ok analysis →
      analysis.needs_clarification = false →
      PyJson.loadsStringList r.deliverable_paths = some dps →
      env.workers analysis.gig_type = some wf →
      (∀ o, wf o = .error ()) →
      (process_new_order env w oid rt gt).result = .ok none ∧
      ∃ rf, findOrder (process_new_order env w oid rt gt).world.db oid = some rf ∧
        rf.status = OrderStatus.failed.value) ∧
    (∀ r cur g reqs dps, findOrder w.db oid = some r →
      OrderStatus.ofValue r.status = some cur →
      can_transition cur .in_progress = true →
      GigType.ofValue r.gig_type = some g →
      PyJson.loadsStringList r.requirements = some reqs →
      PyJson.loadsStringList r.deliverable_paths = some dps →
      (∀ o f, env.revision_process o f = .error ()) →
      (process_revision env w oid fb).result = .ok none ∧
      ∃ rf, findOrder (process_revision env w oid fb).world.db oid = some rf ∧
        rf.status = OrderStatus.failed.value) ∧
    (∀ r analysis, findOrder w.db oid = some r → r.status = OrderStatus.new.value →
      env.analyze rt gt r.price r.buyer_username = .ok analysis →
      analysis.needs_clarification = true →
      analysis.clarification_questions ≠ [] →
      env.generate_clarification r.buyer_username analysis.clarification_questions
        analysis.gig_type.value rt = .error () →
      (process_new_order env w oid rt gt).result = .error Exc.communicator) := by
  refine ⟨?_, ?_, ?_, ?_⟩
  · -- (a) analyzer raises
    intro r hr hst han
    have hov1 : OrderStatus.ofValue r.status = some OrderStatus.new := by rw [hst]; rfl
    have ht1 := transition_step w.db oid r .new .analyzing "" none w.clock hr hov1 rfl
    have hfind1 := findOrder_map_found w.db oid r _ hr
      (transition_map_keys r.id .analyzing "" none w.clock)
    simp only [beq_self_eq_true, if_true, reduceIte] at hfind1
    have hprice : (applyTransitionUpdate r .analyzing "" none w.clock).price = r.price := rfl
    have hbuyer : (applyTransitionUpdate r .analyzing "" none w.clock).buyer_username =
      r.buyer_username := rfl
    have ht2 := transition_step _ oid (applyTransitionUpdate r .analyzing "" none w.clock)
      .analyzing .failed "Analysis failed" none (w.clock + 1) hfind1 rfl rfl
    have hout : process_new_order env w oid rt gt =
        ⟨.ok none,
         ⟨(w.db.map fun x =>
             if x.id == r.id then applyTransitionUpdate x .analyzing "" none w.clock else x).map
           fun x =>
             if x.id == (applyTransitionUpdate r .analyzing "" none w.clock).id then
               applyTransitionUpdate x .failed "Analysis failed" none (w.clock + 1)
             else x,
          w.clock + 1 + 1⟩,
         [.transitioned oid .analyzing, .analyzer_called oid, .transitioned oid .failed]⟩ := by
      simp only [process_new_order, smTransition, ht1, hfind1, hprice, hbuyer, han, ht2,
        List.nil_append, List.cons_append, List.append_nil]
    rw [hout]
    refine ⟨rfl, ?_⟩
    have hfind2 := findOrder_map_found _ oid (applyTransitionUpdate r .analyzing "" none w.clock) _
      hfind1 (transition_map_keys (applyTransitionUpdate r .analyzing "" none w.clock).id
        .failed "Analysis failed" none (w.clock + 1))
    simp only [beq_self_eq_true, if_true, reduceIte] at hfind2
    exact ⟨_, hfind2, rfl⟩
  · -- (b) worker raises
    intro r analysis wf dps hr hst han hneed hdps hwf hwfe
    have hkey := findOrder_pred hr
    have hov1 : OrderStatus.ofValue r.status = some OrderStatus.new := by rw [hst]; rfl
    have ht1 := transition_step w.db oid r .new .analyzing "" none w.clock hr hov1 rfl
    have hfind1 := findOrder_map_found w.db oid r _ hr
      (transition_map_keys r.id .analyzing "" none w.clock)
    simp only [beq_self_eq_true, if_true, reduceIte] at hfind1
    have hprice : (applyTransitionUpdate r .analyzing "" none w.clock).price = r.price := rfl
    have hbuyer : (applyTransitionUpdate r .analyzing "" none w.clock).buyer_username =
      r.buyer_username := rfl
    have hf2keys : ∀ x : OrdersRow,
        ((fun x : OrdersRow => if x.id == oid || x.fiverr_order_id == oid then
          { x with
            gig_type := analysis.gig_type.value
            requirements := PyJson.dumpsStringList analysis.requirements
            updated_at := w.clock + 1 }
          else x) x).id = x.id ∧
        ((fun x : OrdersRow => if x.id == oid || x.fiverr_order_id == oid then
          { x with
            gig_type := analysis.gig_type.value
            requirements := PyJson.dumpsStringList analysis.requirements
            updated_at := w.clock + 1 }
          else x) x).fiverr_order_id = x.fiverr_order_id :=
      fun x => ite_row_keys _ _ _ rfl rfl
    have hfind2 := findOrder_map_found _ oid (applyTransitionUpdate r .analyzing "" none w.clock)
      _ hfind1 hf2keys
    have hr1key : ((applyTransitionUpdate r .analyzing "" none w.clock).id == oid ||
        (applyTransitionUpdate r .analyzing "" none w.clock).fiverr_order_id == oid) = true := hkey
    simp only [hr1key, if_true, reduceIte] at hfind2
    have hfind2u : findOrder (updateAnalysisRow
        (w.db.map fun x => if x.id == r.id then applyTransitionUpdate x .analyzing "" none w.clock else x)
        oid analysis.gig_type.value analysis.requirements (w.clock + 1)) oid =
        some { applyTransitionUpdate r .analyzing "" none w.clock with
          gig_type := analysis.gig_type.value
          requirements := PyJson.dumpsStringList analysis.requirements
          updated_at := w.clock + 1 } := hfind2
    have ht3 := transition_step _ oid _ .analyzing .in_progress "" none (w.clock + 1 + 1)
      hfind2u rfl rfl
    have hfind3 := findOrder_map_found _ oid _ _ hfind2u
      (transition_map_keys ({ applyTransitionUpdate r .analyzing "" none w.clock with
          gig_type := analysis.gig_type.value
          requirements := PyJson.dumpsStringList analysis.requirements
          updated_at := w.clock + 1 } : OrdersRow).id .in_progress "" none (w.clock + 1 + 1))
    simp only [beq_self_eq_true, if_true, reduceIte] at hfind3
    have hbuildS : (sm_build_order_model
        ((updateAnalysisRow
          (w.db.map fun x => if x.id == r.id then applyTransitionUpdate x .analyzing "" none w.clock else x)
          oid analysis.gig_type.value analysis.requirements (w.clock + 1)).map
          fun x => if x.id == ({ applyTransitionUpdate r .analyzing "" none w.clock with
              gig_type := analysis.gig_type.value
              requirements := PyJson.dumpsStringList analysis.requirements
              updated_at := w.clock + 1 } : OrdersRow).id then
            applyTransitionUpdate x .in_progress "" none (w.clock + 1 + 1) else x)
        oid).isSome := by
      rw [sm_build_order_model, hfind3]
      simp [build_order_model, row_to_dict, applyTransitionUpdate, PyJson.loads_dumps,
        gig_ofValue_value, ofValue_value, hdps]
    obtain ⟨om, hbuild⟩ := Option.isSome_iff_exists.mp hbuildS
    have ht4 := transition_step _ oid _ .in_progress .failed "Worker execution failed" none
      (w.clock + 1 + 1 + 1) hfind3 rfl rfl
    have hout : process_new_order env w oid rt gt =
        ⟨.ok none,
         ⟨((updateAnalysisRow
            (w.db.map fun x => if x.id == r.id then applyTransitionUpdate x .analyzing "" none w.clock else x)
            oid analysis.gig_type.value analysis.requirements (w.clock + 1)).map
            (fun x => if x.id == ({ applyTransitionUpdate r .analyzing "" none w.clock with
                gig_type := analysis.gig_type.value
                requirements := PyJson.dumpsStringList analysis.requirements
                updated_at := w.clock + 1 } : OrdersRow).id then
              applyTransitionUpdate x .in_progress "" none (w.clock + 1 + 1) else x)).map
            fun x => if x.id == (applyTransitionUpdate
                { applyTransitionUpdate r .analyzing "" none w.clock with
                  gig_type := analysis.gig_type.value
                  requirements := PyJson.dumpsStringList analysis.requirements
                  updated_at := w.clock + 1 } .in_progress "" none (w.clock + 1 + 1)).id then
              applyTransitionUpdate x .failed "Worker execution failed" none (w.clock + 1 + 1 + 1) else x,
          w.clock + 1 + 1 + 1 + 1⟩,
         [.transitioned oid .analyzing, .analyzer_called oid, .transitioned oid .in_progress,
          .worker_called oid, .transitioned oid .failed]⟩ := by
      simp only [process_new_order, smTransition, ht1, hfind1, hprice, hbuyer, han, hneed,
        Bool.false_eq_true, false_and, if_false, reduceIte, ht3, hbuild, hwf, hwfe om,
        ht4, List.nil_append, List.cons_append, List.append_nil]
    rw [hout]
    refine ⟨rfl, ?_⟩
    have hfind4 := findOrder_map_found _ oid _ _ hfind3
      (transition_map_keys (applyTransitionUpdate
          { applyTransitionUpdate r .analyzing "" none w.clock with
            gig_type := analysis.gig_type.value
            requirements := PyJson.dumpsStringList analysis.requirements
            updated_at := w.clock + 1 } .in_progress "" none (w.clock + 1 + 1)).id
        .failed "Worker execution failed" none (w.clock + 1 + 1 + 1))
    simp only [beq_self_eq_true, if_true, reduceIte] at hfind4
    exact ⟨_, hfind4, rfl⟩
  · -- (c) revision worker raises
    intro r cur g reqs dps hr hov hcan hg hreqs hdps hrev
    have ht1 := transition_step w.db oid r cur .in_progress "" none w.clock hr hov hcan
    have hfind1 := findOrder_map_found w.db oid r _ hr
      (transition_map_keys r.id .in_progress "" none w.clock)
    simp only [beq_self_eq_true, if_true, reduceIte] at hfind1
    have hbuildS : (sm_build_order_model
        (w.db.map fun x =>
          if x.id == r.id then applyTransitionUpdate x .in_progress "" none w.clock else x)
        oid).isSome := by
      rw [sm_build_order_model, hfind1]
      simp [build_order_model, row_to_dict, applyTransitionUpdate, ofValue_value,
        hg, hreqs, hdps]
    obtain ⟨om, hbuild⟩ := Option.isSome_iff_exists.mp hbuildS
    have ht2 := transition_step _ oid (applyTransitionUpdate r .in_progress "" none w.clock)
      .in_progress .failed "Revision worker failed" none (w.clock + 1) hfind1 rfl rfl
    have hout : process_revision env w oid fb =
        ⟨.ok none,
         ⟨(w.db.map fun x =>
             if x.id == r.id then applyTransitionUpdate x .in_progress "" none w.clock else x).map
           fun x =>
             if x.id == (applyTransitionUpdate r .in_progress "" none w.clock).id then
               applyTransitionUpdate x .failed "Revision worker failed" none (w.clock + 1)
             else x,
          w.clock + 1 + 1⟩,
         [.transitioned oid .in_progress, .revision_called oid, .transitioned oid .failed]⟩ := by
      simp only [process_revision, smTransition, ht1, hbuild, hrev om fb, ht2,
        List.nil_append, List.cons_append, List.append_nil]
    rw [hout]
    refine ⟨rfl, ?_⟩
    have hfind2 := findOrder_map_found _ oid (applyTransitionUpdate r .in_progress "" none w.clock)
      _ hfind1 (transition_map_keys (applyTransitionUpdate r .in_progress "" none w.clock).id
        .failed "Revision worker failed" none (w.clock + 1))
    simp only [beq_self_eq_true, if_true, reduceIte] at hfind2
    exact ⟨_, hfind2, rfl⟩
  · -- (d) clarification communicator raises: propagates
    intro r analysis hr hst han hneed hq hclar
    have hkey := findOrder_pred hr
    have hov1 : OrderStatus.ofValue r.status = some OrderStatus.new := by rw [hst]; rfl
    have ht1 := transition_step w.db oid r .new .analyzing "" none w.clock hr hov1 rfl
    have hfind1 := findOrder_map_found w.db oid r _ hr
      (transition_map_keys r.id .analyzing "" none w.clock)
    simp only [beq_self_eq_true, if_true, reduceIte] at hfind1
    have hprice : (applyTransitionUpdate r .analyzing "" none w.clock).price = r.price := rfl
    have hbuyer : (applyTransitionUpdate r .analyzing "" none w.clock).buyer_username =
      r.buyer_username := rfl
    have hf2keys : ∀ x : OrdersRow,
        ((fun x : OrdersRow => if x.id == oid || x.fiverr_order_id == oid then
          { x with
            gig_type := analysis.gig_type.value
            requirements := PyJson.dumpsStringList analysis.requirements
            updated_at := w.clock + 1 }
          else x) x).id = x.id ∧
        ((fun x : OrdersRow => if x.id == oid || x.fiverr_order_id == oid then
          { x with
            gig_type := analysis.gig_type.value
            requirements := PyJson.dumpsStringList analysis.requirements
            updated_at := w.clock + 1 }
          else x) x).fiverr_order_id = x.fiverr_order_id :=
      fun x => ite_row_keys _ _ _ rfl rfl
    have hfind2 := findOrder_map_found _ oid (applyTransitionUpdate r .analyzing "" none w.clock)
      _ hfind1 hf2keys
    have hr1key : ((applyTransitionUpdate r .analyzing "" none w.clock).id == oid ||
        (applyTransitionUpdate r .analyzing "" none w.clock).fiverr_order_id == oid) = true := hkey
    simp only [hr1key, if_true, reduceIte] at hfind2
    have hfind2u : findOrder (updateAnalysisRow
        (w.db.map fun x => if x.id == r.id then applyTransitionUpdate x .analyzing "" none w.clock else x)
        oid analysis.gig_type.value analysis.requirements (w.clock + 1)) oid =
        some { applyTransitionUpdate r .analyzing "" none w.clock with
          gig_type := analysis.gig_type.value
          requirements := PyJson.dumpsStringList analysis.requirements
          updated_at := w.clock + 1 } := hfind2
    have ht3 := transition_step _ oid _ .analyzing .clarifying "" none (w.clock + 1 + 1)
      hfind2u rfl rfl
    simp only [process_new_order, smTransition, ht1, hfind1, hprice, hbuyer, han, hneed,
      hq, ne_eq, not_false_iff, and_self, if_true, reduceIte, ht3, hclar,
      List.nil_append, List.cons_append, List.append_nil]

/-- A stored order awaiting a revision (status REVISION_REQUESTED). -/
def sampleRowRev : OrdersRow :=
  { sampleRow with status := "revision_requested" }

/-- Collaborator bundle whose analyzer raises. -/
def envAnalyzerFails : DispatcherEnv :=
  { analyze := fun _ _ _ _ => .error ()
    generate_clarification := fun _ _ _ _ => .ok "clarify?"
    generate_delivery_message := fun _ _ _ _ => .ok "delivered"
    generate_revision_response := fun _ _ => .ok "revised"
    generate_acknowledgment_msg := fun _ _ _ => .ok "thanks"
    workers := fun _ => some fun _ => .ok ["/tmp/out.docx"]
    revision_process := fun _ _ => .ok ["/tmp/out.docx"] }

/-- Collaborator bundle whose worker raises. -/
def envWorkerFails : DispatcherEnv :=
  { envAnalyzerFails with
    analyze := fun _ _ _ _ => .ok ⟨.writing, ["r1"], false, []⟩
    workers := fun _ => some fun _ => .error () }

/-- Collaborator bundle whose revision worker raises. -/
def envRevisionFails : DispatcherEnv :=
  { envAnalyzerFails with
    analyze := fun _ _ _ _ => .ok ⟨.writing, ["r1"], false, []⟩
    revision_process := fun _ _ => .error () }

/-- Collaborator bundle whose clarification Communicator raises. -/
def envClarFails : DispatcherEnv :=
  { envAnalyzerFails with
    analyze := fun _ _ _ _ => .ok ⟨.writing, ["r1"], true, ["q1"]⟩
    generate_clarification := fun _ _ _ _ => .error () }

/-- Collaborator bundle for the happy clarification path. -/
def envClarOk : DispatcherEnv :=
  { envClarFails with
    generate_clarification := fun _ _ _ _ => .ok "Please clarify" }

/-- Counterexample to C4's blanket no-propagation claim: on a stored NEW order whose analysis requests
clarification, a raising `generate_clarification` Communicator call
escapes `process_new_order` to the caller. -/
theorem dispatcher_propagates_communicator_exception :
    (process_new_order envClarFails ⟨[sampleRow], 0⟩ "o1" "req text" "title").result =
      .error Exc.communicator := by
  rfl

/-- Witness instantiating `dispatcher_exception_policy` on concrete
orders and collaborator bundles. -/
theorem dispatcher_exception_policy_witness :
    ((process_new_order envAnalyzerFails ⟨[sampleRow], 0⟩ "o1" "txt" "title").result = .ok none ∧
      ∃ rf, findOrder (process_new_order envAnalyzerFails ⟨[sampleRow], 0⟩
          "o1" "txt" "title").world.db "o1" = some rf ∧
        rf.status = OrderStatus.failed.value) ∧
    ((process_new_order envWorkerFails ⟨[sampleRow], 0⟩ "o1" "txt" "title").result = .ok none ∧
      ∃ rf, findOrder (process_new_order envWorkerFails ⟨[sampleRow], 0⟩
          "o1" "txt" "title").world.db "o1" = some rf ∧
        rf.status = OrderStatus.failed.value) ∧
    ((process_revision envRevisionFails ⟨[sampleRowRev], 0⟩ "o1" "fb").result = .ok none ∧
      ∃ rf, findOrder (process_revision envRevisionFails ⟨[sampleRowRev], 0⟩
          "o1" "fb").world.db "o1" = some rf ∧
        rf.status = OrderStatus.failed.value) ∧
    (process_new_order envClarFails ⟨[sampleRow], 0⟩ "o1" "txt" "title").result =
      .error Exc.communicator :=
  ⟨(dispatcher_exception_policy envAnalyzerFails ⟨[sampleRow], 0⟩ "o1" "txt" "title" "fb").1
      sampleRow rfl rfl rfl,
    (dispatcher_exception_policy envWorkerFails ⟨[sampleRow], 0⟩ "o1" "txt" "title" "fb").2.1
      sampleRow ⟨.writing, ["r1"], false, []⟩ (fun _ => .error ()) []
      rfl rfl rfl rfl rfl rfl (fun _ => rfl),
    (dispatcher_exception_policy envRevisionFails ⟨[sampleRowRev], 0⟩ "o1" "txt" "title" "fb").2.2.1
      sampleRowRev .revision_requested .writing ["Test requirement"] []
      rfl rfl rfl rfl rfl rfl (fun _ _ => rfl),
    (dispatcher_exception_policy envClarFails ⟨[sampleRow], 0⟩ "o1" "txt" "title" "fb").2.2.2
      sampleRow ⟨.writing, ["r1"], true, ["q1"]⟩ rfl rfl rfl rfl (by decide) rfl⟩

/-- Witness instantiating `clarification_path` on a stored NEW order whose
analysis asks one question. -/
theorem clarification_path_witness :
    (process_new_order envClarOk ⟨[sampleRow], 0⟩ "o1" "txt" "title").result =
      .ok (some ⟨"Please clarify", []⟩) ∧
    ((process_new_order envClarOk ⟨[sampleRow], 0⟩ "o1" "txt" "title").events.filter
      isTransitionEvent) = [.transitioned "o1" .analyzing, .transitioned "o1" .clarifying] ∧
    (∀ k, Event.worker_called k ∉
      (process_new_order envClarOk ⟨[sampleRow], 0⟩ "o1" "txt" "title").events) :=
  clarification_path envClarOk ⟨[sampleRow], 0⟩ "o1" "txt" "title" sampleRow
    ⟨.writing, ["r1"], true, ["q1"]⟩ "Please clarify" rfl rfl rfl rfl (by decide) rfl

/-! ### Scheduler loop (`Scheduler.run`) -/

/-- Exceptions escaping one cycle body, as the two handlers of
`Scheduler.run` classify them: the `BudgetExceededError` class, and any
other `Exception` subclass. -/
inductive CycleExc
  | budgetExceeded
  | other
  deriving DecidableEq, Repr

/-- One iteration of `Scheduler.run`'s `while` body after `_run_cycle`
returns or raises: the sleep it performs before continuing — 3600 s on
`BudgetExceededError`, 60 s on any other exception, the randomized poll
interval on a normal cycle.  In every case the loop continues. -/
def runIterationSleep (res : Except CycleExc Unit) (pollSleep : Nat) : Nat :=
  match res with
  | .error .budgetExceeded => 3600
  | .error .other => 60
  | .ok () => pollSleep

/-- `Scheduler.run`: the trace of sleeps over successive cycle-body
outcomes until `stop()` is observed (one oracle entry per cycle).  The
function is total — both `except` arms swallow the exception — so no
cycle outcome escapes `run()`. -/
def runSleepTrace (pollSleep : Nat) : List (Except CycleExc Unit) → List Nat
  | [] => []
  | res :: rest => runIterationSleep res pollSleep :: runSleepTrace pollSleep rest

/-- C6: `run()` turns every cycle outcome into a sleep-and-continue — a
`BudgetExceeded` escaping `_run_cycle` sleeps 3600 seconds, any other
exception sleeps 60 seconds, and the loop goes on to process every
remaining cycle (the trace covers the whole cycle list; nothing
re-raises out of `run`). -/
theorem scheduler_run_loop (pollSleep : Nat) (cycles : List (Except CycleExc Unit)) :
    runSleepTrace pollSleep cycles =
      cycles.map (fun res => runIterationSleep res pollSleep) ∧
    (runSleepTrace pollSleep cycles).length = cycles.length ∧
    runIterationSleep (.error .budgetExceeded) pollSleep = 3600 ∧
    runIterationSleep (.error .other) pollSleep = 60 ∧
    runIterationSleep (.ok ()) pollSleep = pollSleep := by
  refine ⟨?_, ?_, rfl, rfl, rfl⟩
  · induction cycles with
    | nil => rfl
    | cons c rest ih => simp [runSleepTrace, ih]
  · induction cycles with
    | nil => rfl
    | cons c rest ih => simp [runSleepTrace, ih]

/-! ### Scheduler cycle (`Scheduler._run_cycle` and its steps) -/

/-- One scraped order entry as produced by
`OrderMonitor._scrape_order_list` and consumed by the scheduler. -/
structure ScrapedOrder where
  fiverr_order_id : String
  buyer_username : String
  status : String
  gig_type : String
  price : ℚ
  deriving DecidableEq, Repr

/-- Scheduler-level collaborator oracles on top of the dispatcher's:
session keep-alive, the scraped order list, order detail text, revision
detection, browser delivery and message sending. -/
structure SchedulerEnv extends DispatcherEnv where
  ensure_session : Except Unit Unit
  scraped_orders : Except Unit (List ScrapedOrder)
  get_details : String → Except Unit String
  detect_revision : String → Except Unit (Option String)
  deliver_order : String → String → List String → Except Unit Bool
  send_message : String → String → Except Unit Unit

/-- The monitor's `SELECT ... WHERE fiverr_order_id = ?` lookup. -/
def findByFiverr (db : List OrdersRow) (fid : String) : Option OrdersRow :=
  db.find? (fun r => r.fiverr_order_id == fid)

/-- `OrderMonitor.check_for_new_orders` after scraping: diff each scraped
order against the `orders` table, inserting brand-new ones with status
`'new'` and overwriting the stored status of status-changed ones with the
scraped status string, returning the new-or-changed entries. -/
def check_for_new_orders (w : World) : List ScrapedOrder → List ScrapedOrder × World
  | [] => ([], w)
  | o :: rest =>
    if o.fiverr_order_id = "" then check_for_new_orders w rest
    else
      match findByFiverr w.db o.fiverr_order_id with
      | none =>
        let row : OrdersRow :=
          { id := o.fiverr_order_id
            fiverr_order_id := o.fiverr_order_id
            gig_type := o.gig_type
            status := "new"
            requirements := "[]"
            buyer_username := o.buyer_username
            price := o.price
            created_at := w.clock
            updated_at := w.clock
            delivered_at := none
            deliverable_paths := "[]"
            revision_count := 0
            notes := "" }
        let out := check_for_new_orders ⟨w.db ++ [row], w.clock + 1⟩ rest
        (o :: out.1, out.2)
      | some ex =>
        if ex.status ≠ o.status then
          let db2 := w.db.map fun r =>
            if r.fiverr_order_id == o.fiverr_order_id then
              { r with status := o.status, updated_at := w.clock }
            else r
          let out := check_for_new_orders ⟨db2, w.clock + 1⟩ rest
          (o :: out.1, out.2)
        else check_for_new_orders w rest

/-- Outcome of one scheduler step: the exception escaping it (if any),
the world afterwards and the events logged. -/
structure StepOut where
  error : Option Exc
  world : World
  events : List Event
  deriving Repr

/-- `Scheduler._handle_new_order`: fetch details (caught on failure),
generate an acknowledgment through the dispatcher (an unguarded
Communicator call — its exception propagates), best-effort-send it,
run `process_new_order` (caught on failure), best-effort-send a
fileless clarification message.  The best-effort sends are caught and
touch no state. -/
def handle_new_order (env : SchedulerEnv) (w : World) (od : ScrapedOrder) : StepOut :=
  let fid := od.fiverr_order_id
  let ev0 := [Event.handled_new_order fid]
  match env.get_details fid with
  | .error _ => ⟨none, w, ev0⟩
  | .ok req0 =>
    let requirements_text :=
      if req0 = "" then "Order for gig type: " ++ od.gig_type else req0
    let ack := generate_acknowledgment env.toDispatcherEnv w.db fid
    match ack.result with
    | .error e => ⟨some e, w, ev0 ++ ack.events⟩
    | .ok _ =>
      let dout := process_new_order env.toDispatcherEnv w fid requirements_text od.gig_type
      match dout.result with
      | .error _ => ⟨none, dout.world, ev0 ++ ack.events ++ dout.events⟩
      | .ok _ => ⟨none, dout.world, ev0 ++ ack.events ++ dout.events⟩

/-- `str.lower()` on the scraped status: `String.toLower`, written as a
structural map so that concrete runs compute. -/
def pyLower (s : String) : String := ⟨s.data.map Char.toLower⟩

theorem pyLower_eq_toLower (s : String) : pyLower s = s.toLower := by
  rw [String.toLower, String.map_eq]
  rfl

/-- Step 3 of the cycle: for each returned order whose lowercased scraped
status marks it actionable, handle it; exceptions escaping
`_handle_new_order` propagate out of the cycle (the loop body has no
`try`). -/
def newOrdersLoop (env : SchedulerEnv) : World → List ScrapedOrder → StepOut
  | w, [] => ⟨none, w, []⟩
  | w, od :: rest =>
    if od.fiverr_order_id = "" then newOrdersLoop env w rest
    else
      let s := pyLower od.status
      if s = "new" ∨ s = "active" ∨ s = "in progress" ∨ s = "" then
        let out := handle_new_order env w od
        match out.error with
        | some e => ⟨some e, out.world, out.events⟩
        | none =>
          let out2 := newOrdersLoop env out.world rest
          ⟨out2.error, out2.world, out.events ++ out2.events⟩
      else newOrdersLoop env w rest

/-- The raw `UPDATE orders SET status = 'revision_requested',
revision_count = revision_count + 1, updated_at = ? WHERE
fiverr_order_id = ?` that `OrderMonitor.detect_revision_request` issues
when it finds a revision request. -/
def detectRevisionUpdate (db : List OrdersRow) (fid : String) (now : Nat) : List OrdersRow :=
  db.map fun r =>
    if r.fiverr_order_id == fid then
      { r with
        status := "revision_requested"
        revision_count := r.revision_count + 1
        updated_at := now }
    else r

/-- Step 4 of the cycle (`Scheduler._check_for_revisions` over the
DELIVERED snapshot): detection failures are caught per order; a detected
revision first stamps the row via the monitor's raw update, then runs
`process_revision`, whose exceptions `_handle_revision` catches. -/
def revLoop (env : SchedulerEnv) : World → List OrdersRow → World × List Event
  | w, [] => (w, [])
  | w, row :: rest =>
    match env.detect_revision row.fiverr_order_id with
    | .error _ => revLoop env w rest
    | .ok none => revLoop env w rest
    | .ok (some feedback) =>
      let w1 : World := ⟨detectRevisionUpdate w.db row.fiverr_order_id w.clock, w.clock + 1⟩
      let dout := process_revision env.toDispatcherEnv w1 row.fiverr_order_id feedback
      let out := revLoop env dout.world rest
      (out.1, dout.events ++ out.2)

/-- Step 5 of the cycle (`Scheduler._deliver_ready_orders` over the
REVIEW snapshot): per order, parse the deliverable-path cell (empty on
parse failure), skip when empty, generate the delivery message (an
unguarded Communicator call — its exception propagates out of the whole
step), transition to DELIVERING (caught), deliver, and on `True`
transition to DELIVERED, on `False` to FAILED with a note; an exception
from the delivery call itself is caught and performs no transition. -/
def deliverLoop (env : SchedulerEnv) : World → List OrdersRow → StepOut
  | w, [] => ⟨none, w, []⟩
  | w, row :: rest =>
    let fid := row.fiverr_order_id
    let paths := (PyJson.loadsStringList row.deliverable_paths).getD []
    if paths = [] then deliverLoop env w rest
    else
      match env.generate_delivery_message row.buyer_username row.gig_type
          ("Completed " ++ row.gig_type ++ " order")
          (String.intercalate ", " (paths.map baseName)) with
      | .error _ => ⟨some .communicator, w, []⟩
      | .ok msg =>
        let (t1, w1, ev1) := smTransition w fid .delivering "" none
        match t1.error with
        | some _ =>
          let out := deliverLoop env w1 rest
          ⟨out.error, out.world, ev1 ++ out.events⟩
        | none =>
          match env.deliver_order fid msg paths with
          | .error _ =>
            let out := deliverLoop env w1 rest
            ⟨out.error, out.world, ev1 ++ out.events⟩
          | .ok true =>
            let (t2, w2, ev2) := smTransition w1 fid .delivered "" none
            let out := deliverLoop env w2 rest
            ⟨out.error, out.world, ev1 ++ ev2 ++ out.events⟩
          | .ok false =>
            let (t2, w2, ev2) := smTransition w1 fid .failed "Browser delivery failed" none
            let out := deliverLoop env w2 rest
            ⟨out.error, out.world, ev1 ++ ev2 ++ out.events⟩

/-- Step 6 of the cycle (`Scheduler._send_pending_acknowledgments` over
the NEW snapshot): re-run `_handle_new_order` for each order still in NEW
status (crash recovery); the loop has no `try`, so handle exceptions
propagate. -/
def ackLoop (env : SchedulerEnv) : World → List OrdersRow → StepOut
  | w, [] => ⟨none, w, []⟩
  | w, row :: rest =>
    let od : ScrapedOrder :=
      ⟨row.fiverr_order_id, row.buyer_username, "new", row.gig_type, row.price⟩
    let out := handle_new_order env w od
    match out.error with
    | some e => ⟨some e, out.world, out.events⟩
    | none =>
      let out2 := ackLoop env out.world rest
      ⟨out2.error, out2.world, out.events ++ out2.events⟩

/-- `Scheduler._run_cycle`: session keep-alive, monitor diff, new-order
handling, revision handling, delivery, and NEW-status crash recovery, in
that fixed order; the cycle polls only the DELIVERED, REVIEW and NEW
statuses. -/
def run_cycle (env : SchedulerEnv) (w : World) : StepOut :=
  match env.ensure_session with
  | .error _ => ⟨some .collaborator, w, []⟩
  | .ok _ =>
    match env.scraped_orders with
    | .error _ => ⟨some .collaborator, w, []⟩
    | .ok scraped =>
      let mon := check_for_new_orders w scraped
      let s3 := newOrdersLoop env mon.2 mon.1
      match s3.error with
      | some e => ⟨some e, s3.world, s3.events⟩
      | none =>
        let s4 := revLoop env s3.world
          (s3.world.db.filter (fun r => r.status == OrderStatus.delivered.value))
        let s5 := deliverLoop env s4.1
          (s4.1.db.filter (fun r => r.status == OrderStatus.review.value))
        match s5.error with
        | some e => ⟨some e, s5.world, s3.events ++ s4.2 ++ s5.events⟩
        | none =>
          let s6 := ackLoop env s5.world
            (s5.world.db.filter (fun r => r.status == OrderStatus.new.value))
          ⟨s6.error, s6.world, s3.events ++ s4.2 ++ s5.events ++ s6.events⟩

/-- Both identifier columns of two rows are pairwise distinct: neither
row's `id` or `fiverr_order_id` matches the other's. -/
def rowKeysDisjoint (a b : OrdersRow) : Prop :=
  a.id ≠ b.id ∧ a.id ≠ b.fiverr_order_id ∧
  a.fiverr_order_id ≠ b.id ∧ a.fiverr_order_id ≠ b.fiverr_order_id

/-- The well-keyed table invariant the schema's PRIMARY KEY and UNIQUE
constraints provide: all identifier columns are pairwise distinct. -/
def KeysSep (db : List OrdersRow) : Prop :=
  db.Pairwise rowKeysDisjoint

theorem rowKeysDisjoint_symm {a b : OrdersRow} (h : rowKeysDisjoint a b) :
    rowKeysDisjoint b a :=
  ⟨h.1.symm, h.2.2.1.symm, h.2.1.symm, h.2.2.2.symm⟩

/-- A row rewrite that leaves both identifier columns unchanged. -/
def keysPres (g : OrdersRow → OrdersRow) : Prop :=
  ∀ x, (g x).id = x.id ∧ (g x).fiverr_order_id = x.fiverr_order_id

theorem keysPres_id : keysPres id := fun _ => ⟨rfl, rfl⟩

theorem keysPres_comp {f g : OrdersRow → OrdersRow} (hf : keysPres f) (hg : keysPres g) :
    keysPres (f ∘ g) := by
  intro x
  simp only [Function.comp_apply]
  exact ⟨by rw [(hf (g x)).1, (hg x).1], by rw [(hf (g x)).2, (hg x).2]⟩

theorem KeysSep.disjoint_of_mem {db : List OrdersRow} (hKS : KeysSep db)
    {a b : OrdersRow} (ha : a ∈ db) (hb : b ∈ db) (hne : a ≠ b) :
    rowKeysDisjoint a b := by
  induction db with
  | nil => cases ha
  | cons h t ih =>
    rw [KeysSep, List.pairwise_cons] at hKS
    rcases List.mem_cons.mp ha with rfl | hat
    · rcases List.mem_cons.mp hb with rfl | hbt
      · exact absurd rfl hne
      · exact hKS.1 b hbt
    · rcases List.mem_cons.mp hb with rfl | hbt
      · exact rowKeysDisjoint_symm (hKS.1 a hat)
      · exact ih hKS.2 hat hbt

theorem findOrder_unique (db : List OrdersRow) (r : OrdersRow) (k : String)
    (hKS : KeysSep db) (hm : r ∈ db)
    (hk : (r.id == k || r.fiverr_order_id == k) = true) :
    findOrder db k = some r := by
  induction db with
  | nil => cases hm
  | cons h t ih =>
    rw [KeysSep, List.pairwise_cons] at hKS
    rcases List.mem_cons.mp hm with rfl | hmem
    · unfold findOrder
      exact List.find?_cons_of_pos _ (by simpa using hk)
    · have hdisj := hKS.1 r hmem
      have hk' : r.id = k ∨ r.fiverr_order_id = k := by
        simpa [beq_iff_eq] using hk
      have hpred : ((fun x : OrdersRow => x.id == k || x.fiverr_order_id == k) h) = false := by
        simp only [Bool.or_eq_false_iff, beq_eq_false_iff_ne, ne_eq]
        rcases hk' with rfl | rfl
        · exact ⟨hdisj.1, hdisj.2.2.1⟩
        · exact ⟨hdisj.2.1, hdisj.2.2.2⟩
      unfold findOrder
      rw [List.find?_cons_of_neg _ (by simpa using hpred)]
      exact ih hKS.2 hmem

theorem row_id_ne (base : List OrdersRow) (g : OrdersRow → OrdersRow)
    (r row' : OrdersRow) (fid : String)
    (hKS : KeysSep base) (hr : r ∈ base) (hg : keysPres g)
    (hfid : (r.id == fid || r.fiverr_order_id == fid) = false)
    (hrow' : findOrder (base.map g) fid = some row') :
    (row'.id == r.id) = false := by
  have hpred := findOrder_pred hrow'
  have hmem := findOrder_mem hrow'
  obtain ⟨x, hx, rfl⟩ := List.mem_map.mp hmem
  rw [(hg x).1, (hg x).2] at hpred
  simp only [beq_eq_false_iff_ne, ne_eq, (hg x).1]
  intro hxid
  by_cases hxr : x = r
  · subst hxr
    simp [hpred] at hfid
  · have hdisj := KeysSep.disjoint_of_mem hKS hx hr hxr
    exact hdisj.1 hxid

theorem transition_frame (base : List OrdersRow) (g : OrdersRow → OrdersRow) (r : OrdersRow)
    (c : Nat) (fid : String) (target : OrderStatus) (notes : String) (dp : Option (List String))
    (hKS : KeysSep base) (hr : r ∈ base) (hg : keysPres g)
    (hfid : (r.id == fid || r.fiverr_order_id == fid) = false) :
    ∃ g₂, keysPres g₂ ∧ g₂ r = g r ∧
      (transition (base.map g) fid target notes dp c).db = base.map g₂ := by
  cases hfo : findOrder (base.map g) fid with
  | none =>
    refine ⟨g, hg, rfl, ?_⟩
    simp [transition, hfo]
  | some row1 =>
    cases hov : OrderStatus.ofValue row1.status with
    | none =>
      refine ⟨g, hg, rfl, ?_⟩
      simp [transition, hfo, hov]
    | some cur =>
      by_cases hcan : can_transition cur target = true
      · refine ⟨(fun x => if x.id == row1.id then applyTransitionUpdate x target notes dp c else x) ∘ g,
          keysPres_comp (fun x => ite_row_keys _ _ _ rfl rfl) hg, ?_, ?_⟩
        · have hne := row_id_ne base g r row1 fid hKS hr hg hfid hfo
          simp only [Function.comp_apply]
          rw [if_neg]
          simp only [beq_eq_false_iff_ne, ne_eq] at hne
          simp only [(hg r).1, beq_eq_false_iff_ne, ne_eq, beq_iff_eq]
          exact fun h => hne h.symm
        · simp only [transition, hfo, hov, hcan, if_true, reduceIte, List.map_map]
      · simp only [Bool.not_eq_true] at hcan
        refine ⟨g, hg, rfl, ?_⟩
        simp only [transition, hfo, hov, hcan, Bool.false_eq_true, if_false, reduceIte]

theorem deliverLoop_frame (env : SchedulerEnv) (base : List OrdersRow) (r : OrdersRow)
    (hKS : KeysSep base) (hr : r ∈ base)
    (hcomm : ∀ a b c d, ∃ m, env.generate_delivery_message a b c d = Except.ok m) :
    ∀ (todo rest : List OrdersRow) (g : OrdersRow → OrdersRow) (c : Nat),
      keysPres g →
      (∀ q ∈ todo, q ∈ base ∧ q ≠ r) →
      ∃ g' c' ev,
        keysPres g' ∧ g' r = g r ∧
        deliverLoop env ⟨base.map g, c⟩ (todo ++ rest) =
          ⟨(deliverLoop env ⟨base.map g', c'⟩ rest).error,
           (deliverLoop env ⟨base.map g', c'⟩ rest).world,
           ev ++ (deliverLoop env ⟨base.map g', c'⟩ rest).events⟩ := by
  intro todo
  induction todo with
  | nil =>
    intro rest g c hg _
    exact ⟨g, c, [], hg, rfl, by simp⟩
  | cons q todo ih =>
    intro rest g c hg htodo
    obtain ⟨hqb, hqr⟩ := htodo q (List.mem_cons_self q todo)
    have htodo' : ∀ x ∈ todo, x ∈ base ∧ x ≠ r :=
      fun x hx => htodo x (List.mem_cons_of_mem q hx)
    have hdisj : rowKeysDisjoint r q :=
      hKS.disjoint_of_mem hr hqb (fun h => hqr h.symm)
    have hfid : (r.id == q.fiverr_order_id || r.fiverr_order_id == q.fiverr_order_id) = false := by
      simp only [Bool.or_eq_false_iff, beq_eq_false_iff_ne, ne_eq]
      exact ⟨hdisj.2.1, hdisj.2.2.2⟩
    by_cases hp : (PyJson.loadsStringList q.deliverable_paths).getD [] = []
    · obtain ⟨g', c', ev, hg', hgr', heq⟩ := ih rest g c hg htodo'
      refine ⟨g', c', ev, hg', hgr', ?_⟩
      rw [← heq]
      simp only [List.cons_append, List.append_eq, deliverLoop, hp, if_true, reduceIte]
    · obtain ⟨msg, hmsg⟩ := hcomm q.buyer_username q.gig_type
        ("Completed " ++ q.gig_type ++ " order")
        (String.intercalate ", " (((PyJson.loadsStringList q.deliverable_paths).getD []).map baseName))
      obtain ⟨g₂, hg₂, hg₂r, hdb₂⟩ :=
        transition_frame base g r c q.fiverr_order_id .delivering "" none hKS hr hg hfid
      cases herr : (transition (base.map g) q.fiverr_order_id .delivering "" none c).error with
      | some e =>
        obtain ⟨g', c', ev, hg', hgr', heq⟩ := ih rest g₂ (c + 1) hg₂ htodo'
        refine ⟨g', c', ev, hg', by rw [hgr', hg₂r], ?_⟩
        simp only [List.cons_append, List.append_eq, deliverLoop, hp, if_false, reduceIte, hmsg, smTransition,
          herr, hdb₂]
        rw [heq]
        simp
      | none =>
        cases hdel : env.deliver_order q.fiverr_order_id msg
            ((PyJson.loadsStringList q.deliverable_paths).getD []) with
        | error e2 =>
          obtain ⟨g', c', ev, hg', hgr', heq⟩ := ih rest g₂ (c + 1) hg₂ htodo'
          refine ⟨g', c', [Event.transitioned q.fiverr_order_id .delivering] ++ ev, hg',
            by rw [hgr', hg₂r], ?_⟩
          simp only [List.cons_append, List.append_eq, deliverLoop, hp, if_false, reduceIte, hmsg, smTransition,
            herr, hdb₂, hdel]
          rw [heq]
          simp
        | ok b =>
          cases b with
          | true =>
            obtain ⟨g₃, hg₃, hg₃r, hdb₃⟩ :=
              transition_frame base g₂ r (c + 1) q.fiverr_order_id .delivered "" none hKS hr hg₂ hfid
            obtain ⟨g', c', ev, hg', hgr', heq⟩ := ih rest g₃ (c + 1 + 1) hg₃ htodo'
            refine ⟨g', c', [Event.transitioned q.fiverr_order_id .delivering] ++
              (match (transition (base.map g₂) q.fiverr_order_id .delivered "" none (c + 1)).error with
               | none => [Event.transitioned q.fiverr_order_id .delivered]
               | some _ => []) ++ ev, hg',
              by rw [hgr', hg₃r, hg₂r], ?_⟩
            simp only [List.cons_append, List.append_eq, deliverLoop, hp, if_false, reduceIte, hmsg, smTransition,
              herr, hdb₂, hdel, hdb₃]
            rw [heq]
            simp
          | false =>
            obtain ⟨g₃, hg₃, hg₃r, hdb₃⟩ :=
              transition_frame base g₂ r (c + 1) q.fiverr_order_id .failed
                "Browser delivery failed" none hKS hr hg₂ hfid
            obtain ⟨g', c', ev, hg', hgr', heq⟩ := ih rest g₃ (c + 1 + 1) hg₃ htodo'
            refine ⟨g', c', [Event.transitioned q.fiverr_order_id .delivering] ++
              (match (transition (base.map g₂) q.fiverr_order_id .failed
                  "Browser delivery failed" none (c + 1)).error with
               | none => [Event.transitioned q.fiverr_order_id .failed]
               | some _ => []) ++ ev, hg',
              by rw [hgr', hg₃r, hg₂r], ?_⟩
            simp only [List.cons_append, List.append_eq, deliverLoop, hp, if_false, reduceIte, hmsg, smTransition,
              herr, hdb₂, hdel, hdb₃]
            rw [heq]
            simp

theorem findOrder_map_self (base : List OrdersRow) (g : OrdersRow → OrdersRow) (r : OrdersRow)
    (k : String) (hKS : KeysSep base) (hr : r ∈ base) (hg : keysPres g)
    (hk : (r.id == k || r.fiverr_order_id == k) = true) :
    findOrder (base.map g) k = some (g r) := by
  rw [findOrder_map_keys base g k (fun x => ⟨(hg x).1, (hg x).2⟩),
    findOrder_unique base r k hKS hr hk]
  rfl

theorem deliverLoop_at_r (env : SchedulerEnv) (base : List OrdersRow) (r : OrdersRow)
    (hKS : KeysSep base) (hr : r ∈ base)
    (hst : r.status = OrderStatus.review.value)
    (hp : ¬ (PyJson.loadsStringList r.deliverable_paths).getD [] = [])
    (hcomm : ∀ a b c d, ∃ m, env.generate_delivery_message a b c d = Except.ok m) :
    ∀ (post : List OrdersRow) (g : OrdersRow → OrdersRow) (c : Nat),
      keysPres g → g r = r →
      (∀ q ∈ post, q ∈ base ∧ q ≠ r) →
      ((∀ m, env.deliver_order r.fiverr_order_id m
          ((PyJson.loadsStringList r.deliverable_paths).getD []) = .ok true) →
        (∃ rf, findOrder (deliverLoop env ⟨base.map g, c⟩ (r :: post)).world.db r.id = some rf ∧
          rf.status = OrderStatus.delivered.value ∧ rf.delivered_at ≠ none) ∧
        Event.transitioned r.fiverr_order_id .delivering ∈
          (deliverLoop env ⟨base.map g, c⟩ (r :: post)).events ∧
        Event.transitioned r.fiverr_order_id .delivered ∈
          (deliverLoop env ⟨base.map g, c⟩ (r :: post)).events) ∧
      ((∀ m, env.deliver_order r.fiverr_order_id m
          ((PyJson.loadsStringList r.deliverable_paths).getD []) = .ok false) →
        (∃ rf, findOrder (deliverLoop env ⟨base.map g, c⟩ (r :: post)).world.db r.id = some rf ∧
          rf.status = OrderStatus.failed.value ∧
          rf.notes = r.notes ++ "Browser delivery failed" ++ "\n") ∧
        Event.transitioned r.fiverr_order_id .delivering ∈
          (deliverLoop env ⟨base.map g, c⟩ (r :: post)).events) ∧
      ((∀ m, env.deliver_order r.fiverr_order_id m
          ((PyJson.loadsStringList r.deliverable_paths).getD []) = .error ()) →
        findOrder (deliverLoop env ⟨base.map g, c⟩ (r :: post)).world.db r.id =
          some (applyTransitionUpdate r .delivering "" none c) ∧
        Event.transitioned r.fiverr_order_id .delivering ∈
          (deliverLoop env ⟨base.map g, c⟩ (r :: post)).events) := by
  intro post g c hg hgr hpost
  have hkid : (r.id == r.id || r.fiverr_order_id == r.id) = true := by simp
  have hkfv : (r.id == r.fiverr_order_id || r.fiverr_order_id == r.fiverr_order_id) = true := by simp
  obtain ⟨msg, hmsg⟩ := hcomm r.buyer_username r.gig_type
    ("Completed " ++ r.gig_type ++ " order")
    (String.intercalate ", " (((PyJson.loadsStringList r.deliverable_paths).getD []).map baseName))
  have hfr : findOrder (base.map g) r.fiverr_order_id = some r := by
    rw [findOrder_map_self base g r _ hKS hr hg hkfv, hgr]
  have hov : OrderStatus.ofValue r.status = some OrderStatus.review := by rw [hst]; rfl
  have ht1 := transition_step (base.map g) r.fiverr_order_id r .review .delivering
    "" none c hfr hov rfl
  have hG1 : keysPres ((fun x : OrdersRow =>
      if x.id == r.id then applyTransitionUpdate x .delivering "" none c else x) ∘ g) :=
    keysPres_comp (fun x => ite_row_keys _ _ _ rfl rfl) hg
  have hG1r : ((fun x : OrdersRow =>
      if x.id == r.id then applyTransitionUpdate x .delivering "" none c else x) ∘ g) r =
      applyTransitionUpdate r .delivering "" none c := by
    simp only [Function.comp_apply, hgr, beq_self_eq_true, if_true, reduceIte]
  have hmap1 : ((base.map g).map fun x : OrdersRow =>
      if x.id == r.id then applyTransitionUpdate x .delivering "" none c else x) =
      base.map ((fun x : OrdersRow =>
        if x.id == r.id then applyTransitionUpdate x .delivering "" none c else x) ∘ g) :=
    List.map_map _ _ _
  refine ⟨?_, ?_, ?_⟩
  · -- deliver succeeds → DELIVERED
    intro hdel
    have hfr2 : findOrder (base.map ((fun x : OrdersRow =>
        if x.id == r.id then applyTransitionUpdate x .delivering "" none c else x) ∘ g))
        r.fiverr_order_id = some (applyTransitionUpdate r .delivering "" none c) := by
      rw [findOrder_map_self base _ r _ hKS hr hG1 hkfv, hG1r]
    have ht2 := transition_step _ r.fiverr_order_id
      (applyTransitionUpdate r .delivering "" none c) .delivering .delivered
      "" none (c + 1) hfr2 rfl rfl
    have hG2 : keysPres ((fun x : OrdersRow =>
        if x.id == (applyTransitionUpdate r .delivering "" none c).id then
          applyTransitionUpdate x .delivered "" none (c + 1) else x) ∘
        ((fun x : OrdersRow =>
          if x.id == r.id then applyTransitionUpdate x .delivering "" none c else x) ∘ g)) :=
      keysPres_comp (fun x => ite_row_keys _ _ _ rfl rfl) hG1
    have hG2r : ((fun x : OrdersRow =>
        if x.id == (applyTransitionUpdate r .delivering "" none c).id then
          applyTransitionUpdate x .delivered "" none (c + 1) else x) ∘
        ((fun x : OrdersRow =>
          if x.id == r.id then applyTransitionUpdate x .delivering "" none c else x) ∘ g)) r =
        applyTransitionUpdate (applyTransitionUpdate r .delivering "" none c)
          .delivered "" none (c + 1) := by
      simp only [Function.comp_apply, hgr, beq_self_eq_true, if_true, reduceIte]
    have hmap2 : ((base.map ((fun x : OrdersRow =>
        if x.id == r.id then applyTransitionUpdate x .delivering "" none c else x) ∘ g)).map
        fun x : OrdersRow =>
          if x.id == (applyTransitionUpdate r .delivering "" none c).id then
            applyTransitionUpdate x .delivered "" none (c + 1) else x) =
        base.map ((fun x : OrdersRow =>
          if x.id == (applyTransitionUpdate r .delivering "" none c).id then
            applyTransitionUpdate x .delivered "" none (c + 1) else x) ∘
          ((fun x : OrdersRow =>
            if x.id == r.id then applyTransitionUpdate x .delivering "" none c else x) ∘ g)) :=
      List.map_map _ _ _
    obtain ⟨g', c', ev, hg', hgr', heq⟩ := deliverLoop_frame env base r hKS hr hcomm post []
      _ (c + 1 + 1) hG2 hpost
    have hloop : deliverLoop env ⟨base.map g, c⟩ (r :: post) =
        ⟨(deliverLoop env ⟨base.map g', c'⟩ []).error,
         (deliverLoop env ⟨base.map g', c'⟩ []).world,
         [Event.transitioned r.fiverr_order_id .delivering] ++
           [Event.transitioned r.fiverr_order_id .delivered] ++
           (ev ++ (deliverLoop env ⟨base.map g', c'⟩ []).events)⟩ := by
      have hpost0 : post = post ++ [] := by simp
      conv =>
        left
        rw [show (r :: post) = r :: (post ++ []) from by simp]
      simp only [deliverLoop, hp, if_false, reduceIte, hmsg, smTransition, ht1, hmap1,
        hdel msg, ht2, hmap2]
      rw [heq]
      simp [deliverLoop]
    rw [hloop]
    refine ⟨⟨g' r, ?_, ?_, ?_⟩, ?_, ?_⟩
    · show findOrder (base.map g') r.id = some (g' r)
      exact findOrder_map_self base g' r r.id hKS hr hg' hkid
    · rw [hgr', hG2r]
      exact rfl
    · rw [hgr', hG2r]
      simp [applyTransitionUpdate]
    · simp
    · simp
  · -- deliver returns False → FAILED with note
    intro hdel
    have hfr2 : findOrder (base.map ((fun x : OrdersRow =>
        if x.id == r.id then applyTransitionUpdate x .delivering "" none c else x) ∘ g))
        r.fiverr_order_id = some (applyTransitionUpdate r .delivering "" none c) := by
      rw [findOrder_map_self base _ r _ hKS hr hG1 hkfv, hG1r]
    have ht2 := transition_step _ r.fiverr_order_id
      (applyTransitionUpdate r .delivering "" none c) .delivering .failed
      "Browser delivery failed" none (c + 1) hfr2 rfl rfl
    have hG2 : keysPres ((fun x : OrdersRow =>
        if x.id == (applyTransitionUpdate r .delivering "" none c).id then
          applyTransitionUpdate x .failed "Browser delivery failed" none (c + 1) else x) ∘
        ((fun x : OrdersRow =>
          if x.id == r.id then applyTransitionUpdate x .delivering "" none c else x) ∘ g)) :=
      keysPres_comp (fun x => ite_row_keys _ _ _ rfl rfl) hG1
    have hG2r : ((fun x : OrdersRow =>
        if x.id == (applyTransitionUpdate r .delivering "" none c).id then
          applyTransitionUpdate x .failed "Browser delivery failed" none (c + 1) else x) ∘
        ((fun x : OrdersRow =>
          if x.id == r.id then applyTransitionUpdate x .delivering "" none c else x) ∘ g)) r =
        applyTransitionUpdate (applyTransitionUpdate r .delivering "" none c)
          .failed "Browser delivery failed" none (c + 1) := by
      simp only [Function.comp_apply, hgr, beq_self_eq_true, if_true, reduceIte]
    have hmap2 : ((base.map ((fun x : OrdersRow =>
        if x.id == r.id then applyTransitionUpdate x .delivering "" none c else x) ∘ g)).map
        fun x : OrdersRow =>
          if x.id == (applyTransitionUpdate r .delivering "" none c).id then
            applyTransitionUpdate x .failed "Browser delivery failed" none (c + 1) else x) =
        base.map ((fun x : OrdersRow =>
          if x.id == (applyTransitionUpdate r .delivering "" none c).id then
            applyTransitionUpdate x .failed "Browser delivery failed" none (c + 1) else x) ∘
          ((fun x : OrdersRow =>
            if x.id == r.id then applyTransitionUpdate x .delivering "" none c else x) ∘ g)) :=
      List.map_map _ _ _
    obtain ⟨g', c', ev, hg', hgr', heq⟩ := deliverLoop_frame env base r hKS hr hcomm post []
      _ (c + 1 + 1) hG2 hpost
    have hloop : deliverLoop env ⟨base.map g, c⟩ (r :: post) =
        ⟨(deliverLoop env ⟨base.map g', c'⟩ []).error,
         (deliverLoop env ⟨base.map g', c'⟩ []).world,
         [Event.transitioned r.fiverr_order_id .delivering] ++
           [Event.transitioned r.fiverr_order_id .failed] ++
           (ev ++ (deliverLoop env ⟨base.map g', c'⟩ []).events)⟩ := by
      conv =>
        left
        rw [show (r :: post) = r :: (post ++ []) from by simp]
      simp only [deliverLoop, hp, if_false, reduceIte, hmsg, smTransition, ht1, hmap1,
        hdel msg, ht2, hmap2]
      rw [heq]
      simp [deliverLoop]
    rw [hloop]
    refine ⟨⟨g' r, ?_, ?_, ?_⟩, ?_⟩
    · show findOrder (base.map g') r.id = some (g' r)
      exact findOrder_map_self base g' r r.id hKS hr hg' hkid
    · rw [hgr', hG2r]
      exact rfl
    · rw [hgr', hG2r]
      simp [applyTransitionUpdate]
    · simp
  · -- deliver raises → row left in DELIVERING
    intro hdel
    obtain ⟨g', c', ev, hg', hgr', heq⟩ := deliverLoop_frame env base r hKS hr hcomm post []
      _ (c + 1) hG1 hpost
    have hloop : deliverLoop env ⟨base.map g, c⟩ (r :: post) =
        ⟨(deliverLoop env ⟨base.map g', c'⟩ []).error,
         (deliverLoop env ⟨base.map g', c'⟩ []).world,
         [Event.transitioned r.fiverr_order_id .delivering] ++
           (ev ++ (deliverLoop env ⟨base.map g', c'⟩ []).events)⟩ := by
      conv =>
        left
        rw [show (r :: post) = r :: (post ++ []) from by simp]
      simp only [deliverLoop, hp, if_false, reduceIte, hmsg, smTransition, ht1, hmap1,
        hdel msg]
      rw [heq]
      simp [deliverLoop]
    rw [hloop]
    refine ⟨?_, ?_⟩
    · show findOrder (base.map g') r.id = some (applyTransitionUpdate r .delivering "" none c)
      rw [findOrder_map_self base g' r r.id hKS hr hg' hkid, hgr', hG1r]
    · simp

/-- `Scheduler._deliver_ready_orders`: the delivery pass over the current
REVIEW snapshot. -/
def deliver_ready_orders (env : SchedulerEnv) (w : World) : StepOut :=
  deliverLoop env w (w.db.filter (fun r => r.status == OrderStatus.review.value))

theorem KeysSep.nodup {db : List OrdersRow} (h : KeysSep db) : db.Nodup :=
  List.Pairwise.imp (fun hab => fun he => hab.1 (by rw [he])) h

/-- C7: `_deliver_ready_orders` on a REVIEW order with at least one
deliverable path (under key-separated rows and a non-raising delivery-message
Communicator): a successful browser delivery moves the row through
DELIVERING to DELIVERED and stamps `delivered_at`, while a delivery that
returns failure moves it through DELIVERING to FAILED and appends
"Browser delivery failed" plus a newline to its notes. -/
theorem deliver_ready_orders_spec (env : SchedulerEnv) (w : World) (r : OrdersRow)
    (hKS : KeysSep w.db) (hr : r ∈ w.db)
    (hst : r.status = OrderStatus.review.value)
    (hp : ¬ (PyJson.loadsStringList r.deliverable_paths).getD [] = [])
    (hcomm : ∀ a b c d, ∃ m, env.generate_delivery_message a b c d = Except.ok m) :
    ((∀ m, env.deliver_order r.fiverr_order_id m
        ((PyJson.loadsStringList r.deliverable_paths).getD []) = .ok true) →
      (∃ rf, findOrder (deliver_ready_orders env w).world.db r.id = some rf ∧
        rf.status = OrderStatus.delivered.value ∧ rf.delivered_at ≠ none) ∧
      Event.transitioned r.fiverr_order_id .delivering ∈ (deliver_ready_orders env w).events ∧
      Event.transitioned r.fiverr_order_id .delivered ∈ (deliver_ready_orders env w).events) ∧
    ((∀ m, env.deliver_order r.fiverr_order_id m
        ((PyJson.loadsStringList r.deliverable_paths).getD []) = .ok false) →
      (∃ rf, findOrder (deliver_ready_orders env w).world.db r.id = some rf ∧
        rf.status = OrderStatus.failed.value ∧
        rf.notes = r.notes ++ "Browser delivery failed" ++ "\n") ∧
      Event.transitioned r.fiverr_order_id .delivering ∈ (deliver_ready_orders env w).events) := by
  have hrsnap : r ∈ w.db.filter (fun x => x.status == OrderStatus.review.value) := by
    rw [List.mem_filter]
    exact ⟨hr, by simp [hst]⟩
  obtain ⟨pre, post, hsplit⟩ := List.append_of_mem hrsnap
  have hND : (w.db.filter (fun x => x.status == OrderStatus.review.value)).Nodup :=
    (hKS.nodup).filter _
  rw [hsplit] at hND
  have hrpre : r ∉ pre := by
    intro hmem
    rw [List.nodup_append] at hND
    exact hND.2.2 hmem (List.mem_cons_self r post)
  have hrpost : r ∉ post := by
    rw [List.nodup_append, List.nodup_cons] at hND
    exact hND.2.1.1
  have hsub : ∀ q ∈ w.db.filter (fun x => x.status == OrderStatus.review.value), q ∈ w.db :=
    fun q hq => (List.mem_filter.mp hq).1
  have hpre : ∀ q ∈ pre, q ∈ w.db ∧ q ≠ r := by
    intro q hq
    refine ⟨hsub q (by rw [hsplit]; exact List.mem_append_left _ hq), ?_⟩
    intro he
    exact hrpre (he ▸ hq)
  have hpost : ∀ q ∈ post, q ∈ w.db ∧ q ≠ r := by
    intro q hq
    refine ⟨hsub q (by rw [hsplit]; exact List.mem_append_right _ (List.mem_cons_of_mem r hq)), ?_⟩
    intro he
    exact hrpost (he ▸ hq)
  have hwmap : w.db = w.db.map id := by simp
  have hweta : w = (⟨w.db.map id, w.clock⟩ : World) := by
    rw [← hwmap]
  obtain ⟨g', c', ev, hg', hgr', heq⟩ :=
    deliverLoop_frame env w.db r hKS hr hcomm pre (r :: post) id w.clock keysPres_id hpre
  have hloop : deliver_ready_orders env w =
      ⟨(deliverLoop env ⟨w.db.map g', c'⟩ (r :: post)).error,
       (deliverLoop env ⟨w.db.map g', c'⟩ (r :: post)).world,
       ev ++ (deliverLoop env ⟨w.db.map g', c'⟩ (r :: post)).events⟩ := by
    rw [deliver_ready_orders, hsplit]
    conv =>
      left
      rw [hweta]
    exact heq
  have hgr'' : g' r = r := by rw [hgr']; rfl
  have hAt := deliverLoop_at_r env w.db r hKS hr hst hp hcomm post g' c' hg' hgr'' hpost
  constructor
  · intro hdel
    obtain ⟨⟨rf, hrf, hrfst, hrfda⟩, hev1, hev2⟩ := hAt.1 hdel
    rw [hloop]
    exact ⟨⟨rf, hrf, hrfst, hrfda⟩, List.mem_append_right _ hev1, List.mem_append_right _ hev2⟩
  · intro hdel
    obtain ⟨⟨rf, hrf, hrfst, hrfn⟩, hev1⟩ := hAt.2.1 hdel
    rw [hloop]
    exact ⟨⟨rf, hrf, hrfst, hrfn⟩, List.mem_append_right _ hev1⟩

/-- C10: when the browser delivery raises, the order has already been
transitioned to DELIVERING (the exception escapes after the transition and
before any further update), so the row is left exactly at the DELIVERING
update; DELIVERING rows match none of the scheduler's polled snapshots
(NEW, DELIVERED, REVISION/REVIEW filters), and a full cycle over a table
with no polled statuses is a no-op, so the stuck order is never retried. -/
theorem deliver_exception_leaves_delivering (env : SchedulerEnv) (w : World) (r : OrdersRow)
    (hKS : KeysSep w.db) (hr : r ∈ w.db)
    (hst : r.status = OrderStatus.review.value)
    (hp : ¬ (PyJson.loadsStringList r.deliverable_paths).getD [] = [])
    (hcomm : ∀ a b c d, ∃ m, env.generate_delivery_message a b c d = Except.ok m) :
    ((∀ m, env.deliver_order r.fiverr_order_id m
        ((PyJson.loadsStringList r.deliverable_paths).getD []) = .error ()) →
      ∃ c, findOrder (deliver_ready_orders env w).world.db r.id =
        some (applyTransitionUpdate r .delivering "" none c) ∧
      (applyTransitionUpdate r .delivering "" none c).status =
        OrderStatus.delivering.value ∧
      Event.transitioned r.fiverr_order_id .delivering ∈ (deliver_ready_orders env w).events) ∧
    (∀ (db : List OrdersRow) (x : OrdersRow), x.status = OrderStatus.delivering.value →
      x ∉ db.filter (fun y => y.status == OrderStatus.new.value) ∧
      x ∉ db.filter (fun y => y.status == OrderStatus.delivered.value) ∧
      x ∉ db.filter (fun y => y.status == OrderStatus.review.value)) ∧
    (∀ (env2 : SchedulerEnv) (w2 : World), env2.ensure_session = .ok () →
      env2.scraped_orders = .ok [] →
      (∀ x ∈ w2.db, x.status ≠ OrderStatus.new.value ∧
        x.status ≠ OrderStatus.delivered.value ∧ x.status ≠ OrderStatus.review.value) →
      run_cycle env2 w2 = ⟨none, w2, []⟩) := by
  refine ⟨?_, ?_, ?_⟩
  · intro hdel
    have hrsnap : r ∈ w.db.filter (fun x => x.status == OrderStatus.review.value) := by
      rw [List.mem_filter]
      exact ⟨hr, by simp [hst]⟩
    obtain ⟨pre, post, hsplit⟩ := List.append_of_mem hrsnap
    have hND : (w.db.filter (fun x => x.status == OrderStatus.review.value)).Nodup :=
      (hKS.nodup).filter _
    rw [hsplit] at hND
    have hrpre : r ∉ pre := by
      intro hmem
      rw [List.nodup_append] at hND
      exact hND.2.2 hmem (List.mem_cons_self r post)
    have hrpost : r ∉ post := by
      rw [List.nodup_append, List.nodup_cons] at hND
      exact hND.2.1.1
    have hsub : ∀ q ∈ w.db.filter (fun x => x.status == OrderStatus.review.value), q ∈ w.db :=
      fun q hq => (List.mem_filter.mp hq).1
    have hpre : ∀ q ∈ pre, q ∈ w.db ∧ q ≠ r := by
      intro q hq
      refine ⟨hsub q (by rw [hsplit]; exact List.mem_append_left _ hq), ?_⟩
      intro he
      exact hrpre (he ▸ hq)
    have hpost : ∀ q ∈ post, q ∈ w.db ∧ q ≠ r := by
      intro q hq
      refine ⟨hsub q (by rw [hsplit]; exact List.mem_append_right _ (List.mem_cons_of_mem r hq)), ?_⟩
      intro he
      exact hrpost (he ▸ hq)
    have hweta : w = (⟨w.db.map id, w.clock⟩ : World) := by simp
    obtain ⟨g', c', ev, hg', hgr', heq⟩ :=
      deliverLoop_frame env w.db r hKS hr hcomm pre (r :: post) id w.clock keysPres_id hpre
    have hloop : deliver_ready_orders env w =
        ⟨(deliverLoop env ⟨w.db.map g', c'⟩ (r :: post)).error,
         (deliverLoop env ⟨w.db.map g', c'⟩ (r :: post)).world,
         ev ++ (deliverLoop env ⟨w.db.map g', c'⟩ (r :: post)).events⟩ := by
      rw [deliver_ready_orders, hsplit]
      conv =>
        left
        rw [hweta]
      exact heq
    have hgr'' : g' r = r := by rw [hgr']; rfl
    have hAt := deliverLoop_at_r env w.db r hKS hr hst hp hcomm post g' c' hg' hgr'' hpost
    obtain ⟨hfound, hev⟩ := hAt.2.2 hdel
    rw [hloop]
    exact ⟨c', hfound, rfl, List.mem_append_right _ hev⟩
  · intro db x hx
    refine ⟨?_, ?_, ?_⟩ <;>
    · intro hmem
      have := (List.mem_filter.mp hmem).2
      simp only [beq_iff_eq, hx] at this
      exact absurd this (by decide)
  · intro env2 w2 hsess hscr hstat
    have hf1 : w2.db.filter (fun y => y.status == OrderStatus.delivered.value) = [] := by
      rw [List.filter_eq_nil]
      intro x hx
      simp only [beq_iff_eq]
      exact (hstat x hx).2.1
    have hf2 : w2.db.filter (fun y => y.status == OrderStatus.review.value) = [] := by
      rw [List.filter_eq_nil]
      intro x hx
      simp only [beq_iff_eq]
      exact (hstat x hx).2.2
    have hf3 : w2.db.filter (fun y => y.status == OrderStatus.new.value) = [] := by
      rw [List.filter_eq_nil]
      intro x hx
      simp only [beq_iff_eq]
      exact (hstat x hx).1
    simp only [run_cycle, hsess, hscr, check_for_new_orders, newOrdersLoop,
      hf1, hf2, hf3, revLoop, deliverLoop, ackLoop, List.nil_append, List.append_nil]

/-- A stored order awaiting delivery: REVIEW status with one deliverable. -/
def reviewRow : OrdersRow :=
  { sampleRow with status := "review", deliverable_paths := "[\"/tmp/out.docx\"]" }

/-- Scheduler collaborators whose browser delivery succeeds. -/
def envDeliverTrue : SchedulerEnv :=
  { toDispatcherEnv := envAnalyzerFails
    ensure_session := .ok ()
    scraped_orders := .ok []
    get_details := fun _ => .ok ""
    detect_revision := fun _ => .ok none
    deliver_order := fun _ _ _ => .ok true
    send_message := fun _ _ => .ok () }

/-- Scheduler collaborators whose browser delivery reports failure. -/
def envDeliverFalse : SchedulerEnv :=
  { envDeliverTrue with deliver_order := fun _ _ _ => .ok false }

/-- Scheduler collaborators whose browser delivery raises. -/
def envDeliverRaise : SchedulerEnv :=
  { envDeliverTrue with deliver_order := fun _ _ _ => .error () }

/-- An order stuck in DELIVERING. -/
def deliveringRow : OrdersRow :=
  { sampleRow with status := "delivering" }

theorem deliver_ready_orders_spec_witness :
    ((∃ rf, findOrder (deliver_ready_orders envDeliverTrue ⟨[reviewRow], 0⟩).world.db
        reviewRow.id = some rf ∧
        rf.status = OrderStatus.delivered.value ∧ rf.delivered_at ≠ none) ∧
      Event.transitioned reviewRow.fiverr_order_id .delivering ∈
        (deliver_ready_orders envDeliverTrue ⟨[reviewRow], 0⟩).events ∧
      Event.transitioned reviewRow.fiverr_order_id .delivered ∈
        (deliver_ready_orders envDeliverTrue ⟨[reviewRow], 0⟩).events) ∧
    ((∃ rf, findOrder (deliver_ready_orders envDeliverFalse ⟨[reviewRow], 0⟩).world.db
        reviewRow.id = some rf ∧
        rf.status = OrderStatus.failed.value ∧
        rf.notes = reviewRow.notes ++ "Browser delivery failed" ++ "\n") ∧
      Event.transitioned reviewRow.fiverr_order_id .delivering ∈
        (deliver_ready_orders envDeliverFalse ⟨[reviewRow], 0⟩).events) :=
  ⟨(deliver_ready_orders_spec envDeliverTrue ⟨[reviewRow], 0⟩ reviewRow
      (by simp [KeysSep]) (by simp) rfl (by decide)
      (fun _ _ _ _ => ⟨"delivered", rfl⟩)).1 (fun _ => rfl),
    (deliver_ready_orders_spec envDeliverFalse ⟨[reviewRow], 0⟩ reviewRow
      (by simp [KeysSep]) (by simp) rfl (by decide)
      (fun _ _ _ _ => ⟨"delivered", rfl⟩)).2 (fun _ => rfl)⟩

theorem deliver_exception_leaves_delivering_witness :
    (∃ c, findOrder (deliver_ready_orders envDeliverRaise ⟨[reviewRow], 0⟩).world.db
        reviewRow.id = some (applyTransitionUpdate reviewRow .delivering "" none c) ∧
      (applyTransitionUpdate reviewRow .delivering "" none c).status =
        OrderStatus.delivering.value ∧
      Event.transitioned reviewRow.fiverr_order_id .delivering ∈
        (deliver_ready_orders envDeliverRaise ⟨[reviewRow], 0⟩).events) ∧
    (deliveringRow ∉ [deliveringRow].filter (fun y => y.status == OrderStatus.new.value) ∧
      deliveringRow ∉ [deliveringRow].filter (fun y => y.status == OrderStatus.delivered.value) ∧
      deliveringRow ∉ [deliveringRow].filter (fun y => y.status == OrderStatus.review.value)) ∧
    run_cycle envDeliverRaise ⟨[deliveringRow], 0⟩ = ⟨none, ⟨[deliveringRow], 0⟩, []⟩ := by
  obtain ⟨h1, h2, h3⟩ := deliver_exception_leaves_delivering envDeliverRaise
    ⟨[reviewRow], 0⟩ reviewRow (by simp [KeysSep]) (by simp) rfl (by decide)
    (fun _ _ _ _ => ⟨"delivered", rfl⟩)
  refine ⟨h1 (fun _ => rfl), h2 [deliveringRow] deliveringRow rfl,
    h3 envDeliverRaise ⟨[deliveringRow], 0⟩ rfl rfl ?_⟩
  intro x hx
  simp only [List.mem_singleton] at hx
  subst hx
  exact ⟨by decide, by decide, by decide⟩

/-- The row `check_for_new_orders` INSERTs for a previously unseen
scraped order. -/
def newRowOf (w : World) (od : ScrapedOrder) : OrdersRow :=
  { id := od.fiverr_order_id
    fiverr_order_id := od.fiverr_order_id
    gig_type := od.gig_type
    status := "new"
    requirements := "[]"
    buyer_username := od.buyer_username
    price := od.price
    created_at := w.clock
    updated_at := w.clock
    delivered_at := none
    deliverable_paths := "[]"
    revision_count := 0
    notes := "" }

theorem check_for_new_orders_fresh (w : World) (od : ScrapedOrder)
    (hfid : ¬ od.fiverr_order_id = "")
    (hfind : findByFiverr w.db od.fiverr_order_id = none) :
    check_for_new_orders w [od] = ([od], ⟨w.db ++ [newRowOf w od], w.clock + 1⟩) := by
  simp only [check_for_new_orders, if_neg hfid, hfind, newRowOf]

theorem check_for_new_orders_seen (w : World) (od : ScrapedOrder) (ex : OrdersRow)
    (hfid : ¬ od.fiverr_order_id = "")
    (hfind : findByFiverr w.db od.fiverr_order_id = some ex)
    (hst : ex.status = od.status) :
    check_for_new_orders w [od] = ([], w) := by
  simp only [check_for_new_orders, if_neg hfid, hfind, hst]
  simp [check_for_new_orders]

/-- A freshly scraped NEW order. -/
def scrapedNew : ScrapedOrder := ⟨"FO-1", "buyer", "new", "writing", 10⟩

/-- Scheduler collaborators that scrape one new order but whose
order-details fetch raises. -/
def envDetailsRaise : SchedulerEnv :=
  { envDeliverTrue with
    scraped_orders := .ok [scrapedNew]
    get_details := fun _ => .error () }

/-- End-to-end collaborators for a fully successful single-order cycle. -/
def envHappyCycle : SchedulerEnv :=
  { envDeliverTrue with
    toDispatcherEnv :=
      { envAnalyzerFails with analyze := fun _ _ _ _ => .ok ⟨.writing, ["r1"], false, []⟩ }
    scraped_orders := .ok [scrapedNew]
    get_details := fun _ => .ok "Write an article" }

/-- Counterexample to C9's exactly-once guarantee: in a cycle that scrapes
one genuinely new order whose details fetch raises (caught inside
`_handle_new_order`, leaving the inserted row in NEW), step 3 handles the
order once and step 6's NEW-status crash-recovery pass
(`_send_pending_acknowledgments`) re-invokes `_handle_new_order` on the
same order, for two invocations within the single cycle. -/
theorem handle_new_order_invoked_twice :
    (run_cycle envDetailsRaise ⟨[], 0⟩).events.count
      (Event.handled_new_order "FO-1") = 2 := by decide

/-- C9 (amended): step 3 of a cycle handles a scraped order only when it
is genuinely new or its stored status changed. However
`_send_pending_acknowledgments` (step 6) re-invokes `_handle_new_order`
on every row still in NEW at the end of the cycle: when the details
fetch raises (caught, leaving the inserted row in NEW), the order is
handled exactly twice within the single cycle; an already-seen order
whose scraped status matches its stored row (over a table with no
NEW/DELIVERED/REVIEW rows) is never handled; and on a fully successful
pipeline the order is handled exactly once, since processing moves it
out of NEW before step 6 runs. -/
theorem scheduler_new_order_invocations (env : SchedulerEnv) (w : World)
    (od : ScrapedOrder) (ex : OrdersRow)
    (hsess : env.ensure_session = .ok ())
    (hscr : env.scraped_orders = .ok [od])
    (hfid : ¬ od.fiverr_order_id = "")
    (hquiet : ∀ r ∈ w.db, r.status ≠ OrderStatus.new.value ∧
      r.status ≠ OrderStatus.delivered.value ∧ r.status ≠ OrderStatus.review.value) :
    ((pyLower od.status = "new") →
      (∀ r ∈ w.db, ¬ r.fiverr_order_id = od.fiverr_order_id) →
      (∀ fid, env.get_details fid = .error ()) →
      (run_cycle env w).events.count
        (Event.handled_new_order od.fiverr_order_id) = 2) ∧
    (findByFiverr w.db od.fiverr_order_id = some ex → ex.status = od.status →
      (run_cycle env w).events.count
        (Event.handled_new_order od.fiverr_order_id) = 0) ∧
    (run_cycle envHappyCycle ⟨[], 0⟩).events.count
      (Event.handled_new_order "FO-1") = 1 := by
  refine ⟨?_, ?_, by decide⟩
  · intro hlow hfresh hdet
    have hfind : findByFiverr w.db od.fiverr_order_id = none := by
      rw [findByFiverr, List.find?_eq_none]
      intro r hr
      simp [hfresh r hr]
    have hmon := check_for_new_orders_fresh w od hfid hfind
    have hh : handle_new_order env ⟨w.db ++ [newRowOf w od], w.clock + 1⟩ od =
        ⟨none, ⟨w.db ++ [newRowOf w od], w.clock + 1⟩,
          [Event.handled_new_order od.fiverr_order_id]⟩ := by
      simp only [handle_new_order, hdet]
    have hs3 : newOrdersLoop env ⟨w.db ++ [newRowOf w od], w.clock + 1⟩ [od] =
        ⟨none, ⟨w.db ++ [newRowOf w od], w.clock + 1⟩,
          [Event.handled_new_order od.fiverr_order_id]⟩ := by
      simp only [newOrdersLoop, if_neg hfid, hlow, hh]
      simp [newOrdersLoop]
    have hqd : w.db.filter (fun r => r.status == OrderStatus.delivered.value) = [] := by
      rw [List.filter_eq_nil_iff]
      intro r hr
      simpa using (hquiet r hr).2.1
    have hqr : w.db.filter (fun r => r.status == OrderStatus.review.value) = [] := by
      rw [List.filter_eq_nil_iff]
      intro r hr
      simpa using (hquiet r hr).2.2
    have hqn : w.db.filter (fun r => r.status == OrderStatus.new.value) = [] := by
      rw [List.filter_eq_nil_iff]
      intro r hr
      simpa using (hquiet r hr).1
    have hfd : (w.db ++ [newRowOf w od]).filter
        (fun r => r.status == OrderStatus.delivered.value) = [] := by
      rw [List.filter_append, hqd]
      rfl
    have hfr : (w.db ++ [newRowOf w od]).filter
        (fun r => r.status == OrderStatus.review.value) = [] := by
      rw [List.filter_append, hqr]
      rfl
    have hfn : (w.db ++ [newRowOf w od]).filter
        (fun r => r.status == OrderStatus.new.value) = [newRowOf w od] := by
      rw [List.filter_append, hqn]
      rfl
    have hack : ackLoop env ⟨w.db ++ [newRowOf w od], w.clock + 1⟩ [newRowOf w od] =
        ⟨none, ⟨w.db ++ [newRowOf w od], w.clock + 1⟩,
          [Event.handled_new_order od.fiverr_order_id]⟩ := by
      simp only [ackLoop, handle_new_order, hdet]
      simp [ackLoop, newRowOf]
    simp only [run_cycle, hsess, hscr, hmon, hs3, hfd, hfr, hfn, revLoop, deliverLoop, hack]
    simp [List.count_cons]
  · intro hfind hst
    have hmon := check_for_new_orders_seen w od ex hfid hfind hst
    have hqd : w.db.filter (fun r => r.status == OrderStatus.delivered.value) = [] := by
      rw [List.filter_eq_nil_iff]
      intro r hr
      simpa using (hquiet r hr).2.1
    have hqr : w.db.filter (fun r => r.status == OrderStatus.review.value) = [] := by
      rw [List.filter_eq_nil_iff]
      intro r hr
      simpa using (hquiet r hr).2.2
    have hqn : w.db.filter (fun r => r.status == OrderStatus.new.value) = [] := by
      rw [List.filter_eq_nil_iff]
      intro r hr
      simpa using (hquiet r hr).1
    simp only [run_cycle, hsess, hscr, hmon, newOrdersLoop, hqd, hqr, hqn,
      revLoop, deliverLoop, ackLoop]
    simp

theorem scheduler_new_order_invocations_witness :
    ((run_cycle envDetailsRaise ⟨[], 0⟩).events.count
        (Event.handled_new_order "FO-1") = 2) ∧
    ((run_cycle envHappyCycle ⟨[], 0⟩).events.count
        (Event.handled_new_order "FO-1") = 1) :=
  ⟨(scheduler_new_order_invocations envDetailsRaise ⟨[], 0⟩ scrapedNew sampleRow
      rfl rfl (by decide) (by simp)).1 rfl (by simp) (fun _ => rfl),
   (scheduler_new_order_invocations envDetailsRaise ⟨[], 0⟩ scrapedNew sampleRow
      rfl rfl (by decide) (by simp)).2.2⟩
